import Mathlib

/-!
Shallow embedding of the messaging core of the chat_V1 repository
(`db.py`: `MessagingDatabase` over sqlite, `app.py`: the Flask request layer)
and proofs about its thread / conversation / message state engine.

Modelling conventions:
- sqlite rows become Lean structures; a nullable column is an `Option`,
  a `TEXT NOT NULL` column written only with string values is a `String`.
- `CURRENT_TIMESTAMP` and `datetime.now()` become an explicit `now : Nat`
  argument threaded to each write; ISO timestamp strings become `Nat`
  (the chronological order is all the code relies on).
- `uuid.uuid4` id generation becomes a `fresh : Nat` counter on the store;
  primary-key uniqueness of generated ids is assumed, not re-proved.
- a Python dict produced from a `sqlite3.Row` always contains every column
  as a key, so `dict.get(key, default)` on such a dict returns the stored
  value even when that value is NULL; the model therefore reads the stored
  `Option` directly where the source reads `row_dict.get(col, default)`.
- the attachment JSON blobs are modelled as lists of records carrying the
  one field the code reads back (`type`); triggers are folded into the
  write operations exactly as `_create_triggers` declares them.
-/

/-- A row of the `users` table (the columns the modelled operations read). -/
structure UserRow where
  firebase_uid : String
  email : Option String := none
  display_name : Option String := none
  photo_url : Option String := none
  role : Option String := none
deriving DecidableEq, Repr

/-- A row of the `threads` table. -/
structure ThreadRow where
  id : String
  title : String
  description : String
  campaign_id : Option String
  created_by : String
  status : String
  updated_at : Nat
deriving DecidableEq, Repr

/-- A row of the `conversations` table. The `participant1_name` column is
declared NOT NULL, but the request layer can hand the insert a Python `None`
(a user row with a NULL display name), so the model keeps it an `Option` and
does not model the NOT NULL check. -/
structure ConversationRow where
  id : String
  thread_id : String
  name : Option String := none
  participant1_id : String
  participant1_name : Option String := none
  participant1_avatar : Option String := none
  participant2_id : Option String := none
  participant2_name : Option String := none
  participant2_avatar : Option String := none
  last_message : Option String := none
  last_message_time : Option Nat := none
  unread_count : Int := 0
  status : String := "active"
  updated_at : Nat := 0
deriving DecidableEq, Repr

/-- One attachment record as built by `process_file_upload` and stored as
JSON; only the `type` field (media kind) is ever read back, via
`first_attachment.get('type', 'file')`, so the other metadata fields
(filename, path, size, dimensions) are not modelled. -/
structure Attachment where
  type : Option String := none
deriving DecidableEq, Repr

/-- A row of the `messages` table. -/
structure MessageRow where
  id : String
  conversation_id : String
  thread_id : String
  sender_id : String
  sender_type : String
  sender_name : Option String := none
  type : String
  content : Option String := none
  text_content : Option String := none
  caption : Option String := none
  filename : Option String := none
  file_size : Option Nat := none
  has_attachment : Bool := false
  attachments : List Attachment := []
  timestamp : Nat
  status : String := "sent"
  deleted : Bool := false
  deleted_at : Option Nat := none
deriving DecidableEq, Repr

/-- The durable store: the four tables plus the fresh-id counter standing in
for `uuid.uuid4` generation. -/
structure DB where
  users : List UserRow := []
  threads : List ThreadRow := []
  conversations : List ConversationRow := []
  messages : List MessageRow := []
  fresh : Nat := 0
deriving DecidableEq, Repr

def findUser (db : DB) (uid : String) : Option UserRow :=
  db.users.find? (fun u => u.firebase_uid == uid)

def findThread (db : DB) (tid : String) : Option ThreadRow :=
  db.threads.find? (fun t => t.id == tid)

def findConv (db : DB) (cid : String) : Option ConversationRow :=
  db.conversations.find? (fun c => c.id == cid)

def findMessage (db : DB) (mid : String) : Option MessageRow :=
  db.messages.find? (fun m => m.id == mid)

/-- `MessagingDatabase.thread_exists`. -/
def thread_exists (db : DB) (tid : String) : Bool := (findThread db tid).isSome

/-- `MessagingDatabase.conversation_exists`. -/
def conversation_exists (db : DB) (cid : String) : Bool := (findConv db cid).isSome

/-- Python truthiness of an optional string (`None` and `''` are falsy). -/
def optTruthy : Option String → Bool
  | some s => s != ""
  | none => false

/-- The input dict of `MessagingDatabase.create_thread` (`thread_data`). -/
structure ThreadData where
  id : Option String := none
  title : Option String := none
  description : Option String := none
  campaign_id : Option String := none
  created_by : Option String := none
  status : Option String := none
deriving DecidableEq, Repr

/-- The `SELECT id FROM threads WHERE campaign_id = ? AND created_by = ?`
lookup used by `create_thread` (both before the insert and in the
IntegrityError handler). -/
def lookupThreadByPair (db : DB) (c u : String) : Option ThreadRow :=
  db.threads.find? (fun t => t.campaign_id == some c && t.created_by == u)

/-- Whether the `UNIQUE(campaign_id, created_by)` index rejects an insert of
`(camp, user)`: sqlite treats NULLs as distinct, so only a non-NULL
campaign id can collide. -/
def threadInsertConflict (db : DB) (camp : Option String) (user : String) : Bool :=
  match camp with
  | none => false
  | some c => (lookupThreadByPair db c user).isSome

/-- `MessagingDatabase.create_thread`, split into its two store accesses so
that the concurrent case can be stated: the duplicate-check SELECT reads
`dbPre` (the state this request observed) while the INSERT and the
IntegrityError handler run against `db` (the state at write time); the
sequential call is `createThread` below, where the two coincide. `none`
models the re-raised `sqlite3.IntegrityError`. -/
def create_thread2 (d : ThreadData) (now : Nat) (dbPre db : DB) :
    Option (String × DB) :=
  let tid := d.id.getD ("t" ++ toString db.fresh)
  let campaign_id := d.campaign_id
  let created_by := d.created_by.getD ""
  let existing :=
    if optTruthy campaign_id && created_by != "" then
      lookupThreadByPair dbPre (campaign_id.getD "") created_by
    else none
  match existing with
  | some t => some (t.id, db)
  | none =>
    if threadInsertConflict db campaign_id created_by then
      if optTruthy campaign_id && created_by != "" then
        match lookupThreadByPair db (campaign_id.getD "") created_by with
        | some t => some (t.id, db)
        | none => none
      else none
    else
      let row : ThreadRow :=
        { id := tid
          title := d.title.getD "New Thread"
          description := d.description.getD ""
          campaign_id := campaign_id
          created_by := created_by
          status := d.status.getD "active"
          updated_at := now }
      some (tid, { db with threads := db.threads ++ [row], fresh := db.fresh + 1 })

/-- `MessagingDatabase.create_thread` with sequential (single-request)
semantics: the duplicate check and the insert see the same state. -/
def create_thread (d : ThreadData) (now : Nat) (db : DB) : Option (String × DB) :=
  create_thread2 d now db db

/-- `MessagingDatabase.user_has_thread_access`: the SQL EXISTS over
`threads LEFT JOIN conversations`, true when the user created the thread or
occupies either participant slot of some conversation under it. -/
def user_has_thread_access (db : DB) (thread_id user_id : String) : Bool :=
  db.threads.any (fun t => t.id == thread_id &&
    (t.created_by == user_id ||
     db.conversations.any (fun c => c.thread_id == t.id &&
       (c.participant1_id == user_id || c.participant2_id == some user_id))))

/-- `MessagingDatabase.get_conversations_by_thread` (the ORDER BY clause is
not modelled; no claim depends on result order). -/
def get_conversations_by_thread (db : DB) (thread_id : String)
    (user_id : Option String) : List ConversationRow :=
  match user_id with
  | some uid =>
    db.conversations.filter (fun c => c.thread_id == thread_id &&
      c.status == "active" &&
      (c.participant1_id == uid || c.participant2_id == some uid))
  | none =>
    db.conversations.filter (fun c => c.thread_id == thread_id && c.status == "active")

/-- `MessagingDatabase.get_or_create_conversation`. With a second
participant the pair is normalised (`if p1_id > p2_id: swap`, names and
avatars swapped along) before the lookup and the insert; without one a fresh
single-participant conversation is always inserted. -/
def get_or_create_conversation (thread_id participant1_id : String)
    (participant2_id : Option String)
    (participant1_name participant2_name : Option String)
    (participant1_avatar participant2_avatar : Option String)
    (name : Option String) (now : Nat) (db : DB) : String × DB :=
  match participant2_id with
  | some p2 =>
    let (q1, q2, n1, n2, a1, a2) :=
      if participant1_id > p2 then
        (p2, participant1_id, participant2_name, participant1_name,
         participant2_avatar, participant1_avatar)
      else
        (participant1_id, p2, participant1_name, participant2_name,
         participant1_avatar, participant2_avatar)
    match db.conversations.find? (fun c => c.thread_id == thread_id &&
        c.participant1_id == q1 && c.participant2_id == some q2) with
    | some c => (c.id, db)
    | none =>
      let cid := "c" ++ toString db.fresh
      let row : ConversationRow :=
        { id := cid, thread_id := thread_id, name := name
          participant1_id := q1, participant1_name := n1, participant1_avatar := a1
          participant2_id := some q2, participant2_name := n2, participant2_avatar := a2
          updated_at := now }
      (cid, { db with conversations := db.conversations ++ [row], fresh := db.fresh + 1 })
  | none =>
    let cid := "c" ++ toString db.fresh
    let row : ConversationRow :=
      { id := cid, thread_id := thread_id, name := name
        participant1_id := participant1_id
        participant1_name := participant1_name
        participant1_avatar := participant1_avatar
        updated_at := now }
    (cid, { db with conversations := db.conversations ++ [row], fresh := db.fresh + 1 })

/-- `MessagingDatabase.add_participant2_to_conversation`: the conditional
UPDATE `WHERE id = ? AND participant2_id IS NULL`; the Bool is
`affected_rows > 0`. -/
def add_participant2_to_conversation (conversation_id participant2_id : String)
    (participant2_name participant2_avatar : Option String) (now : Nat)
    (db : DB) : Bool × DB :=
  let matched := db.conversations.any
    (fun c => c.id == conversation_id && c.participant2_id == none)
  let convs := db.conversations.map (fun c =>
    if c.id == conversation_id && c.participant2_id == none then
      { c with participant2_id := some participant2_id
               participant2_name := participant2_name
               participant2_avatar := participant2_avatar
               updated_at := now }
    else c)
  (matched, { db with conversations := convs })

/-- The result dict of `update_conversation_read_status_detailed`. -/
structure MarkReadResult where
  success : Bool
  reason : String
  updated : Bool
  cleared_unread_count : Option Int := none
deriving DecidableEq, Repr

/-- The `UPDATE conversations SET unread_count = 0 WHERE id = ?` statement
used by `update_conversation_read_status_detailed`. -/
def clearUnreadCount (conversation_id : String) (db : DB) : DB :=
  { db with conversations := db.conversations.map (fun c' =>
      if c'.id == conversation_id then { c' with unread_count := 0 } else c') }

/-- `MessagingDatabase.update_conversation_read_status_detailed`: read the
unread counter; clear it and report the cleared count when positive,
report a no-op otherwise. -/
def update_conversation_read_status_detailed (conversation_id : String)
    (db : DB) : MarkReadResult × DB :=
  match findConv db conversation_id with
  | none =>
    ({ success := false, reason := "conversation_not_found", updated := false }, db)
  | some c =>
    if c.unread_count > 0 then
      ({ success := true, reason := "marked_as_read", updated := true
         cleared_unread_count := some c.unread_count },
       clearUnreadCount conversation_id db)
    else
      ({ success := true, reason := "already_read", updated := false }, db)

/-- `COALESCE(NEW.text_content, NEW.content, 'Attachment')` from the insert
trigger. -/
def coalesceMsgText (text_content content : Option String) : String :=
  match text_content with
  | some s => s
  | none =>
    match content with
    | some s => s
    | none => "Attachment"

/-- A raw INSERT into `messages` together with the
`update_conversation_on_message_insert` trigger: when the new row is not
deleted, the owning conversation gets the denormalised last-message text and
time and the owning thread gets a fresh updated_at, atomically with the
insert; for an already-deleted row the trigger is skipped. -/
def insertMessageRow (row : MessageRow) (now : Nat) (db : DB) : DB :=
  let db1 := { db with messages := db.messages ++ [row] }
  if row.deleted then db1
  else
    { db1 with
      conversations := db1.conversations.map (fun c =>
        if c.id == row.conversation_id then
          { c with last_message := some (coalesceMsgText row.text_content row.content)
                   last_message_time := some row.timestamp
                   updated_at := now }
        else c)
      threads := db1.threads.map (fun t =>
        if t.id == row.thread_id then { t with updated_at := now } else t) }

/-- The input dict of `MessagingDatabase.create_message` (`message_data`). -/
structure MessageData where
  id : Option String := none
  conversation_id : String
  thread_id : String
  sender_id : String
  sender_type : String
  sender_name : Option String := none
  type : String
  content : Option String := none
  text_content : Option String := none
  caption : Option String := none
  filename : Option String := none
  file_size : Option Nat := none
  has_attachment : Bool := false
  attachments : List Attachment := []
  timestamp : Nat
  status : Option String := none
deriving DecidableEq, Repr

/-- The row built by `MessagingDatabase.create_message` for a given id:
content defaults to `''`, text_content defaults to content, status to
`'delivered'`, deleted false. -/
def messageRowOf (md : MessageData) (mid : String) : MessageRow :=
  { id := mid, conversation_id := md.conversation_id, thread_id := md.thread_id
    sender_id := md.sender_id, sender_type := md.sender_type
    sender_name := md.sender_name, type := md.type
    content := some (md.content.getD "")
    text_content := some (md.text_content.getD (md.content.getD ""))
    caption := md.caption, filename := md.filename, file_size := md.file_size
    has_attachment := md.has_attachment, attachments := md.attachments
    timestamp := md.timestamp, status := md.status.getD "delivered"
    deleted := false, deleted_at := none }

/-- `MessagingDatabase.create_message`: build the row and insert it, firing
the insert trigger. -/
def create_message (md : MessageData) (now : Nat) (db : DB) : String × DB :=
  let mid := md.id.getD ("m" ++ toString db.fresh)
  (mid, insertMessageRow (messageRowOf md mid) now { db with fresh := db.fresh + 1 })

/-- `MessagingDatabase.delete_message` together with the
`update_conversation_on_message_delete` trigger: overwrite the content
fields with the fixed placeholder, force the type to the deletion marker,
record the deletion time; the trigger fires only on a FALSE-to-TRUE flip of
the deleted flag and then stamps the owning conversation with the fixed
placeholder text. The Bool is `rowcount > 0`. Message ids are primary keys,
so the first row found is the row updated. -/
def delete_message (message_id : String) (now : Nat) (db : DB) : Bool × DB :=
  let target := findMessage db message_id
  let msgs := db.messages.map (fun m =>
    if m.id == message_id then
      { m with deleted := true, deleted_at := some now
               content := some "This message was deleted"
               text_content := some "This message was deleted"
               type := "deleted" }
    else m)
  let db1 := { db with messages := msgs }
  match target with
  | none => (false, db1)
  | some old =>
    if old.deleted then (true, db1)
    else
      (true,
       { db1 with conversations := db1.conversations.map (fun c =>
           if c.id == old.conversation_id then
             { c with last_message := some "Message was deleted", updated_at := now }
           else c) })

example : (create_thread { campaign_id := some "c1", created_by := some "u1" } 0 {}).map
    (fun r => r.1) = some "t0" := by decide

example :
    (match create_thread { campaign_id := some "c1", created_by := some "u1" } 0 {} with
     | some (_, db1) =>
       (create_thread { campaign_id := some "c1", created_by := some "u1", title := some "x" } 1 db1).map
         (fun r => r.1)
     | none => none) = some "t0" := by decide

/-- `get_file_type` from `app.py`: classify by the extension after the last
dot, lowercased. -/
def get_file_type (filename : String) : String :=
  let ext :=
    if filename.contains '.' then ((filename.splitOn ".").getLastD "").toLower
    else ""
  if ["png", "jpg", "jpeg", "gif", "bmp", "webp", "svg", "ico", "tiff", "tif"].contains ext then
    "image"
  else if ["mp4", "mov", "avi", "mkv", "webm", "flv", "wmv", "m4v", "mpeg", "mpg"].contains ext then
    "video"
  else
    "file"

/-- Python `str.strip()` as used by `determine_message_type`: drop leading
and trailing whitespace (`String.trim` is not kernel-reducible, so the strip
call is modelled directly over the character list). -/
def pyStrip (s : String) : String :=
  String.mk (((s.data.dropWhile Char.isWhitespace).reverse.dropWhile
    Char.isWhitespace).reverse)

/-- `determine_message_type` from `app.py`, on a stored message row: text
when the attachment flag is off; otherwise the media kind of the first attachment,
suffixed with `+text` when truthy text is present; with an empty attachment
list it falls back to the legacy filename column. -/
def determine_message_type (m : MessageRow) : String :=
  let has_text :=
    (match m.text_content with
     | some s => s != ""
     | none => false) || pyStrip (m.content.getD "") != ""
  if !m.has_attachment then "text"
  else
    match m.attachments with
    | [] =>
      match m.filename with
      | some f =>
        if f != "" then
          let ft := get_file_type f
          if has_text then ft ++ "+text" else ft
        else "text"
      | none => "text"
    | a :: _ =>
      let primary := a.type.getD "file"
      if has_text then primary ++ "+text" else primary

/-- Responses of the join endpoint
(`POST /messages/threads/t/conversations/c/join`). `alreadyJoined` is the
HTTP 400 conflict response for a filled slot; `updateFailed` is the HTTP 500
returned when the conditional UPDATE matched no row. -/
inductive JoinResp where
  | threadNotFound
  | convNotFound
  | alreadyJoined (participant2_id participant2_name : Option String)
  | selfJoin
  | userNotFound
  | joined
  | updateFailed
deriving DecidableEq, Repr

/-- Whether a join response is the conflict rejection (the 400
already-has-a-second-participant response). -/
def JoinResp.isConflict : JoinResp → Bool
  | .alreadyJoined _ _ => true
  | _ => false

/-- The read-only first half of `join_conversation` in `app.py`: existence
checks, the filled-slot check, the self-join check and the user lookup; on
success it carries the joining user display name and avatar forward to the
conditional update. -/
def join_pre (thread_id conversation_id uid : String) (db : DB) :
    Except JoinResp (Option String × Option String) :=
  if !thread_exists db thread_id then .error .threadNotFound
  else if !conversation_exists db conversation_id then .error .convNotFound
  else
    match findConv db conversation_id with
    | none => .error .convNotFound
    | some c =>
      if c.participant2_id.isSome then
        .error (.alreadyJoined c.participant2_id c.participant2_name)
      else if c.participant1_id == uid then .error .selfJoin
      else
        match findUser db uid with
        | none => .error .userNotFound
        | some u => .ok (u.display_name, u.photo_url)

/-- The writing second half of `join_conversation`: the conditional update,
mapped to `joined` on success and the 500 `updateFailed` otherwise. -/
def join_finish (conversation_id uid : String) (payload : Option String × Option String)
    (now : Nat) (db : DB) : JoinResp × DB :=
  let r := add_participant2_to_conversation conversation_id uid payload.1 payload.2 now db
  (if r.1 then .joined else .updateFailed, r.2)

/-- `join_conversation` run without interference: precheck then update
against the same evolving state. -/
def join_conversation (thread_id conversation_id uid : String) (now : Nat)
    (db : DB) : JoinResp × DB :=
  match join_pre thread_id conversation_id uid db with
  | .error r => (r, db)
  | .ok payload => join_finish conversation_id uid payload now db

/-- Responses of `GET /messages/threads/t` (`get_thread` in `app.py`). -/
inductive GetThreadResp where
  | notFound
  | forbidden
  | ok (thread : ThreadRow) (conversations : List ConversationRow)
deriving DecidableEq, Repr

/-- `get_thread` in `app.py`: 404 for a missing thread, 403 without access,
otherwise the thread plus only the conversations the caller participates in.
The `ensure_user_exists` identity bookkeeping does not touch the thread or
its conversations and is not modelled. -/
def get_thread (thread_id uid : String) (db : DB) : GetThreadResp :=
  if !thread_exists db thread_id then .notFound
  else if !user_has_thread_access db thread_id uid then .forbidden
  else
    match findThread db thread_id with
    | none => .notFound
    | some t => .ok t (get_conversations_by_thread db thread_id (some uid))

/-- Responses of the message endpoint DELETE branch (`handle_message`). -/
inductive DeleteResp where
  | threadNotFound
  | convNotFound
  | msgNotFound
  | convMismatch
  | threadMismatch
  | alreadyDeleted
  | notSender
  | deleted
  | deleteFailed
deriving DecidableEq, Repr

/-- The DELETE branch of `handle_message` in `app.py`: parent checks, then
the already-deleted short circuit (a success that changes nothing), then the
only-sender-may-delete check against the stored sender_id, then the store
soft delete. -/
def handle_message_delete (thread_id conversation_id message_id uid : String)
    (now : Nat) (db : DB) : DeleteResp × DB :=
  if !thread_exists db thread_id then (.threadNotFound, db)
  else if !conversation_exists db conversation_id then (.convNotFound, db)
  else
    match findMessage db message_id with
    | none => (.msgNotFound, db)
    | some m =>
      if m.conversation_id != conversation_id then (.convMismatch, db)
      else if m.thread_id != thread_id then (.threadMismatch, db)
      else if m.deleted then (.alreadyDeleted, db)
      else if m.sender_id != uid then (.notSender, db)
      else
        let r := delete_message message_id now db
        (if r.1 then .deleted else .deleteFailed, r.2)

/-- The JSON body of a text message send (`data` in the POST branch of
`handle_conversation`); absent keys are `none`. -/
structure SendBody where
  sender_id : Option String := none
  sender_type : Option String := none
  sender_name : Option String := none
  type : Option String := none
  content : Option String := none
deriving DecidableEq, Repr

/-- Responses of the POST branch of `handle_conversation`. -/
inductive SendResp where
  | threadNotFound
  | convNotFound
  | convMismatch
  | notParticipant
  | noData
  | created (message_id : String)
deriving DecidableEq, Repr

/-- The `message_data` dict built by the JSON POST branch of
`handle_conversation`: the stored sender is `data.get('sender_id', user_id)`
(the body value when present, the authenticated uid only as a default) and
the sender name is the found sender user row display name, else the body or
token fallbacks. -/
def jsonMessageData (thread_id conversation_id uid : String)
    (auth_name auth_email : Option String) (data : SendBody) (now : Nat)
    (db : DB) : MessageData :=
  let sender_id := data.sender_id.getD uid
  let db_user := findUser db sender_id
  let sender_name : Option String :=
    match db_user with
    | some u => u.display_name
    | none => some (data.sender_name.getD (auth_name.getD (auth_email.getD "User")))
  { conversation_id := conversation_id, thread_id := thread_id
    sender_id := sender_id
    sender_type := data.sender_type.getD "client"
    sender_name := sender_name
    type := data.type.getD "text"
    content := some (data.content.getD "")
    text_content := some (data.content.getD "")
    timestamp := now, status := some "delivered" }

/-- The JSON (text-only) POST branch of `handle_conversation` in `app.py`:
parent and participant checks are made against the authenticated caller
`uid`, but the stored sender is `data.get('sender_id', user_id)` — the body
value when present, the caller only as a default; `auth_name` and
`auth_email` are the token claims used for the fallback sender name. The
multipart branch computes its sender the same way from the form. -/
def handle_conversation_post_json (thread_id conversation_id uid : String)
    (auth_name auth_email : Option String) (body : Option SendBody) (now : Nat)
    (db : DB) : SendResp × DB :=
  if !thread_exists db thread_id then (.threadNotFound, db)
  else if !conversation_exists db conversation_id then (.convNotFound, db)
  else
    match findConv db conversation_id with
    | none => (.convNotFound, db)
    | some c =>
      if c.thread_id != thread_id then (.convMismatch, db)
      else if c.participant1_id != uid && c.participant2_id != some uid then
        (.notParticipant, db)
      else
        match body with
        | none => (.noData, db)
        | some data =>
          let r := create_message
            (jsonMessageData thread_id conversation_id uid auth_name auth_email
              data now db) now db
          (.created r.1, r.2)

/-- One `campaignDetails` entry of a job from the external campaign service
(absent keys are `none`). -/
structure CampaignDetail where
  campaignId : Option String := none
  campaignName : Option String := none
deriving DecidableEq, Repr

/-- A job from the external campaign service. -/
structure Job where
  campaignDetails : List CampaignDetail := []
deriving DecidableEq, Repr

/-- One page of `fetch_influencer_jobs`. -/
structure JobsPage where
  jobs : List Job := []
  totalPages : Nat := 1
deriving DecidableEq, Repr

/-- The job-flattening step of the influencer branch of
`sync_user_campaign_threads`: first campaignDetails entry per job, truthy
campaign id required, first occurrence of a campaign id wins (Python dict
insertion order). -/
def collectCampaigns (jobs : List Job) : List (String × String) :=
  jobs.foldl (fun acc job =>
    match job.campaignDetails.head? with
    | none => acc
    | some cd =>
      match cd.campaignId with
      | none => acc
      | some cid =>
        if cid != "" && !(acc.any (fun p => p.1 == cid)) then
          acc ++ [(cid, cd.campaignName.getD "Unnamed Campaign")]
        else acc) []

/-- The influencer branch of `sync_user_campaign_threads` in `app.py`.
`fetch` models `fetch_influencer_jobs` per page (`none` is a raised
`HyptrbAPIError`): a failing first page aborts the sync to a zero count via
the outer handler, later failing pages are skipped; then one
`create_thread` per deduplicated campaign, and the returned counter is
incremented after every `create_thread` call that does not raise. The
client branch counts the same way and is not separately modelled. -/
def sync_user_campaign_threads (fetch : Nat → Option JobsPage) (uid : String)
    (now : Nat) (db : DB) : Nat × DB :=
  match fetch 1 with
  | none => (0, db)
  | some page1 =>
    let all_jobs := page1.jobs ++
      (List.range' 2 (page1.totalPages - 1)).foldl (fun acc p =>
        match fetch p with
        | some pg => acc ++ pg.jobs
        | none => acc) []
    let campaigns := collectCampaigns all_jobs
    campaigns.foldl (fun (st : Nat × DB) entry =>
      let d : ThreadData :=
        { title := some entry.2
          description := some ("Messages for campaign " ++ entry.2)
          campaign_id := some entry.1
          created_by := some uid
          status := some "active" }
      match create_thread d now st.2 with
      | some (_, db') => (st.1 + 1, db')
      | none => st) (0, db)

/-- Spec-side comparison definition: the latest (max-timestamp) non-deleted
message of a conversation, which the spec says the stored last_message must
reflect. -/
def specLatestNonDeleted (db : DB) (cid : String) : Option MessageRow :=
  (db.messages.filter (fun m => m.conversation_id == cid && !m.deleted)).foldl
    (fun acc m =>
      match acc with
      | none => some m
      | some m0 => if m0.timestamp ≤ m.timestamp then some m else some m0) none

/-- The store mutators of the model, reified so that properties quantifying
over every modelled operation can be stated. -/
inductive DBOp where
  | thrCreate (d : ThreadData) (now : Nat)
  | convGetOrCreate (tid p1 : String) (p2 : Option String)
      (n1 n2 a1 a2 nm : Option String) (now : Nat)
  | convJoin (cid p2 : String) (n a : Option String) (now : Nat)
  | convMarkRead (cid : String)
  | msgInsert (row : MessageRow) (now : Nat)
  | msgDelete (mid : String) (now : Nat)
deriving DecidableEq, Repr

/-- State transition of each modelled store operation (a raised
IntegrityError leaves the store unchanged: nothing was committed). -/
def applyOp : DBOp → DB → DB
  | .thrCreate d now, db =>
    match create_thread d now db with
    | some r => r.2
    | none => db
  | .convGetOrCreate tid p1 p2 n1 n2 a1 a2 nm now, db =>
    (get_or_create_conversation tid p1 p2 n1 n2 a1 a2 nm now db).2
  | .convJoin cid p2 n a now, db =>
    (add_participant2_to_conversation cid p2 n a now db).2
  | .convMarkRead cid, db =>
    (update_conversation_read_status_detailed cid db).2
  | .msgInsert row now, db => insertMessageRow row now db
  | .msgDelete mid now, db => (delete_message mid now db).2

theorem find_append_of_none {α : Type} {p : α → Bool} {l1 : List α} (l2 : List α)
    (h : l1.find? p = none) : (l1 ++ l2).find? p = l2.find? p := by
  induction l1 with
  | nil => simp
  | cons a t ih =>
    rw [List.find?_cons] at h
    rw [List.cons_append, List.find?_cons]
    cases hp : p a with
    | true => simp [hp] at h
    | false =>
      simp only [hp] at h ⊢
      exact ih h

theorem find_map_comm {α : Type} {p : α → Bool} {f : α → α}
    (hp : ∀ a, p (f a) = p a) (l : List α) :
    (l.map f).find? p = (l.find? p).map f := by
  induction l with
  | nil => simp
  | cons a t ih =>
    rw [List.map_cons, List.find?_cons, List.find?_cons]
    cases hpa : p a with
    | true => simp [hp a, hpa]
    | false => simp [hp a, hpa, ih]

/-- C7: `mark_read` on an existing conversation is a read-clear operation,
idempotent after the first effective call: with the unread counter at 0 (or
below) it reports updated=false and leaves the store unchanged; with
unread_count N > 0 it resets the counter to 0 and reports the cleared count
N, and an immediately following call reports updated=false and changes
nothing. -/
theorem mark_read_clear_idempotent (db : DB) (cid : String) (c : ConversationRow)
    (hfind : findConv db cid = some c) :
    (c.unread_count ≤ 0 → update_conversation_read_status_detailed cid db =
      ({ success := true, reason := "already_read", updated := false }, db)) ∧
    (0 < c.unread_count →
      update_conversation_read_status_detailed cid db =
        ({ success := true, reason := "marked_as_read", updated := true
           cleared_unread_count := some c.unread_count }, clearUnreadCount cid db) ∧
      (∀ c' ∈ (clearUnreadCount cid db).conversations, c'.id = cid →
        c'.unread_count = 0) ∧
      update_conversation_read_status_detailed cid (clearUnreadCount cid db) =
        ({ success := true, reason := "already_read", updated := false },
         clearUnreadCount cid db)) := by
  have hfind' : db.conversations.find? (fun c' => c'.id == cid) = some c := hfind
  have hpc : (c.id == cid) = true :=
    List.find?_some (p := fun c' : ConversationRow => c'.id == cid) hfind'
  have hpc' : c.id = cid := beq_iff_eq.mp hpc
  constructor
  · intro hle
    have hng : ¬ (c.unread_count > 0) := not_lt.mpr hle
    simp [update_conversation_read_status_detailed, hfind, hng]
  · intro hpos
    have hstep : update_conversation_read_status_detailed cid db =
        ({ success := true, reason := "marked_as_read", updated := true
           cleared_unread_count := some c.unread_count }, clearUnreadCount cid db) := by
      simp [update_conversation_read_status_detailed, hfind, hpos]
    have hfind2 : findConv (clearUnreadCount cid db) cid =
        some { c with unread_count := 0 } := by
      unfold findConv clearUnreadCount
      rw [find_map_comm (p := fun c' : ConversationRow => c'.id == cid)]
      · rw [show (db.conversations.find? fun c' : ConversationRow => c'.id == cid) =
            some c from hfind]
        simp [hpc']
      · intro a
        by_cases ha : (a.id == cid) = true
        · rw [if_pos ha]
        · rw [if_neg ha]
    refine ⟨hstep, ?_, ?_⟩
    · intro c' hc' hid
      rcases List.mem_map.mp hc' with ⟨c0, _, heq⟩
      by_cases h0 : (c0.id == cid) = true
      · rw [if_pos h0] at heq
        rw [← heq]
      · rw [if_neg h0] at heq
        rw [← heq] at hid
        exact absurd (beq_iff_eq.mpr hid) h0
    · simp [update_conversation_read_status_detailed, hfind2]

/-- Witness conversation for the read-clear theorem. -/
def wConv7 : ConversationRow :=
  { id := "c1", thread_id := "t1", participant1_id := "alice", unread_count := 3 }

/-- Witness store for the read-clear theorem. -/
def wDB7 : DB := { conversations := [wConv7] }

/-- Witness: on a conversation with 3 unread messages the first `mark_read`
clears and reports 3, the second reports a no-op. -/
theorem mark_read_clear_idempotent_witness :
    update_conversation_read_status_detailed "c1" wDB7 =
      ({ success := true, reason := "marked_as_read", updated := true
         cleared_unread_count := some 3 }, clearUnreadCount "c1" wDB7) ∧
    update_conversation_read_status_detailed "c1" (clearUnreadCount "c1" wDB7) =
      ({ success := true, reason := "already_read", updated := false },
       clearUnreadCount "c1" wDB7) :=
  let h := mark_read_clear_idempotent wDB7 "c1" wConv7 (by decide)
  ⟨(h.2 (by decide)).1, (h.2 (by decide)).2.2⟩

/-- C9: read-time display-type classification. For a store-shaped message
(attachment flag consistent with the attachment list, text_content mirroring
content as `create_message` writes them): no attachment gives `text`;
otherwise the media kind of the first attachment, with `+text` appended
exactly when the text content is non-empty. -/
theorem message_display_type (m : MessageRow) (s : String)
    (hflag : m.has_attachment = !m.attachments.isEmpty)
    (htc : m.text_content = some s) (hcon : m.content = some s) :
    (m.attachments = [] → determine_message_type m = "text") ∧
    (∀ a rest k, m.attachments = a :: rest → a.type = some k →
      determine_message_type m = if s = "" then k else k ++ "+text") := by
  constructor
  · intro hnil
    simp [determine_message_type, hflag, hnil]
  · intro a rest k hcons hk
    have htrim : pyStrip "" = "" := by decide
    by_cases hs : s = "" <;>
      simp [determine_message_type, hflag, hcons, hk, htc, hcon, hs, htrim]

/-- Witness message: no attachments, text hi. -/
def wMsgText : MessageRow :=
  { id := "m1", conversation_id := "c1", thread_id := "t1", sender_id := "alice"
    sender_type := "client", type := "text", content := some "hi"
    text_content := some "hi", timestamp := 1 }

/-- Witness message: one image attachment, empty text. -/
def wMsgImage : MessageRow :=
  { id := "m2", conversation_id := "c1", thread_id := "t1", sender_id := "alice"
    sender_type := "client", type := "file", content := some ""
    text_content := some "", has_attachment := true
    attachments := [{ type := some "image" }], timestamp := 2 }

/-- Witness message: one image attachment, non-empty text. -/
def wMsgImageText : MessageRow :=
  { id := "m3", conversation_id := "c1", thread_id := "t1", sender_id := "alice"
    sender_type := "client", type := "file", content := some "nice"
    text_content := some "nice", has_attachment := true
    attachments := [{ type := some "image" }], timestamp := 3 }

/-- Witness: the three classification scenarios from the spec. -/
theorem message_display_type_witness :
    determine_message_type wMsgText = "text" ∧
    determine_message_type wMsgImage = "image" ∧
    determine_message_type wMsgImageText = "image+text" := by
  refine ⟨?_, ?_, ?_⟩
  · exact (message_display_type wMsgText "hi" (by decide) rfl rfl).1 rfl
  · have h := (message_display_type wMsgImage "" (by decide) rfl rfl).2
      { type := some "image" } [] "image" rfl rfl
    simpa using h
  · have h := (message_display_type wMsgImageText "nice" (by decide) rfl rfl).2
      { type := some "image" } [] "image" rfl rfl
    simpa using h

/-- The two-page, three-job, two-campaign upstream listing from the spec
scenario (page 1: jobs for camp1 and camp2, page 2: another job for camp1). -/
def scenarioFetch : Nat → Option JobsPage := fun n =>
  if n == 1 then
    some { jobs := [ { campaignDetails := [{ campaignId := some "camp1"
                                             campaignName := some "Campaign One" }] }
                   , { campaignDetails := [{ campaignId := some "camp2"
                                             campaignName := some "Campaign Two" }] } ]
           totalPages := 2 }
  else if n == 2 then
    some { jobs := [ { campaignDetails := [{ campaignId := some "camp1"
                                             campaignName := some "Campaign One" }] } ]
           totalPages := 2 }
  else none

/-- C2: on the spec scenario the first sync creates exactly 2 threads and
returns 2, but a repeat sync with identical upstream data returns 2 again,
not 0: the counter is incremented after every `create_thread` call that
returns (an existing thread is returned, not raised), so existing threads
are counted as created. The store itself stays at 2 threads. -/
theorem sync_repeat_counts_existing :
    (sync_user_campaign_threads scenarioFetch "u1" 0 {}).1 = 2 ∧
    (sync_user_campaign_threads scenarioFetch "u1" 0 {}).2.threads.length = 2 ∧
    (sync_user_campaign_threads scenarioFetch "u1" 1
      (sync_user_campaign_threads scenarioFetch "u1" 0 {}).2).1 = 2 ∧
    (sync_user_campaign_threads scenarioFetch "u1" 1
      (sync_user_campaign_threads scenarioFetch "u1" 0 {}).2).2.threads.length = 2 ∧
    ¬ (sync_user_campaign_threads scenarioFetch "u1" 1
      (sync_user_campaign_threads scenarioFetch "u1" 0 {}).2).1 = 0 := by
  decide

/-- Number of stored thread rows for a (campaign, owner) pair. -/
def pairCount (db : DB) (c u : String) : Nat :=
  (db.threads.filter (fun t => t.campaign_id == some c && t.created_by == u)).length

/-- C1: thread creation is idempotent per (campaign_id, created_by) pair
with both non-empty. Two sequential calls return the same id, the second
leaves the store unchanged (the second title/description are discarded),
exactly one row exists for the pair afterwards, and a racing second
creation whose duplicate check read the pre-insert state resolves the
uniqueness violation to the winning id instead of raising. -/
theorem create_thread_idempotent (d d' : ThreadData) (c u : String)
    (now now' : Nat) (db : DB)
    (hc : d.campaign_id = some c) (hc0 : c ≠ "")
    (hu : d.created_by = some u) (hu0 : u ≠ "")
    (hid : d.id = none)
    (hc' : d'.campaign_id = some c) (hu' : d'.created_by = some u)
    (hid' : d'.id = none) (hcount : pairCount db c u ≤ 1) :
    ∃ tid db1,
      create_thread d now db = some (tid, db1) ∧
      create_thread d' now' db1 = some (tid, db1) ∧
      pairCount db1 c u = 1 ∧
      create_thread2 d' now' db db1 = some (tid, db1) := by
  cases hfind : lookupThreadByPair db c u with
  | some t =>
    refine ⟨t.id, db, ?_, ?_, ?_, ?_⟩
    · simp [create_thread, create_thread2, hc, hu, hid, optTruthy, hc0, hu0,
        bne_iff_ne, hfind]
    · simp [create_thread, create_thread2, hc', hu', hid', optTruthy, hc0, hu0,
        bne_iff_ne, hfind]
    · have hfind' : db.threads.find?
          (fun t => t.campaign_id == some c && t.created_by == u) = some t := hfind
      have hmem : t ∈ db.threads := List.mem_of_find?_eq_some hfind'
      have hp : (t.campaign_id == some c && t.created_by == u) = true :=
        List.find?_some
          (p := fun t : ThreadRow => t.campaign_id == some c && t.created_by == u) hfind'
      have hmemf : t ∈ db.threads.filter
          (fun t => t.campaign_id == some c && t.created_by == u) :=
        List.mem_filter.mpr ⟨hmem, hp⟩
      have hpos : 0 < pairCount db c u :=
        List.length_pos.mpr (List.ne_nil_of_mem hmemf)
      omega
    · simp [create_thread2, hc', hu', hid', optTruthy, hc0, hu0, bne_iff_ne, hfind]
  | none =>
    have hfind' : db.threads.find?
        (fun t => t.campaign_id == some c && t.created_by == u) = none := hfind
    refine ⟨"t" ++ toString db.fresh,
      { db with
        threads := db.threads ++
          [{ id := "t" ++ toString db.fresh
             title := d.title.getD "New Thread"
             description := d.description.getD ""
             campaign_id := some c
             created_by := u
             status := d.status.getD "active"
             updated_at := now }]
        fresh := db.fresh + 1 }, ?_, ?_, ?_, ?_⟩
    case _ =>
      simp [create_thread, create_thread2, hc, hu, hid, optTruthy, hc0, hu0,
        bne_iff_ne, hfind, threadInsertConflict]
    all_goals {
      have hfind1 : lookupThreadByPair
          { db with
            threads := db.threads ++
              [{ id := "t" ++ toString db.fresh
                 title := d.title.getD "New Thread"
                 description := d.description.getD ""
                 campaign_id := some c
                 created_by := u
                 status := d.status.getD "active"
                 updated_at := now }]
            fresh := db.fresh + 1 } c u =
          some { id := "t" ++ toString db.fresh
                 title := d.title.getD "New Thread"
                 description := d.description.getD ""
                 campaign_id := some c
                 created_by := u
                 status := d.status.getD "active"
                 updated_at := now } := by
        unfold lookupThreadByPair
        show (db.threads ++ [_]).find? _ = _
        rw [find_append_of_none _ hfind']
        simp
      first
      | simp [create_thread, create_thread2, hc', hu', hid', optTruthy, hc0, hu0,
          bne_iff_ne, hfind, hfind1, threadInsertConflict]
      | · have hnil : db.threads.filter
              (fun t => t.campaign_id == some c && t.created_by == u) = [] := by
            rw [List.filter_eq_nil_iff]
            intro a ha
            have := List.find?_eq_none.mp hfind' a ha
            simpa using this
          simp [pairCount, List.filter_append, hnil]
    }

/-- Witness thread data for the idempotency theorem. -/
def wTD1 : ThreadData :=
  { title := some "T", description := some "D", campaign_id := some "campX"
    created_by := some "owner1" }

/-- Witness thread data with a different title for the duplicate call. -/
def wTD1b : ThreadData :=
  { title := some "Other", campaign_id := some "campX", created_by := some "owner1" }

/-- Witness: creating twice for (campX, owner1) from an empty store. -/
theorem create_thread_idempotent_witness :
    ∃ tid db1,
      create_thread wTD1 0 {} = some (tid, db1) ∧
      create_thread wTD1b 1 db1 = some (tid, db1) ∧
      pairCount db1 "campX" "owner1" = 1 ∧
      create_thread2 wTD1b 1 {} db1 = some (tid, db1) :=
  create_thread_idempotent wTD1 wTD1b "campX" "owner1" 0 1 {} rfl (by decide) rfl
    (by decide) rfl rfl rfl rfl (by decide)

/-- C6: conversation creation with two known participants is canonical in
the unordered pair: creating in thread tid with (a, b) and then with (b, a)
returns the same conversation id and leaves the store as after the first
call; the stored row keeps the lower id in slot 1 with names and avatars
swapped along with the ids. The hypothesis says no conversation for the
normalised pair exists yet in the thread. -/
theorem conversation_canonical_pairing (db : DB) (tid a b : String)
    (na nb va vb nm nmb : Option String) (now now' : Nat)
    (hnone : db.conversations.find? (fun cv => cv.thread_id == tid &&
        cv.participant1_id == (if a > b then b else a) &&
        cv.participant2_id == some (if a > b then a else b)) = none) :
    ∃ cid db1,
      get_or_create_conversation tid a (some b) na nb va vb nm now db = (cid, db1) ∧
      get_or_create_conversation tid b (some a) nb na vb va nmb now' db1 = (cid, db1) ∧
      ∃ cv ∈ db1.conversations, cv.id = cid ∧ cv.thread_id = tid ∧
        cv.participant1_id = (if a > b then b else a) ∧
        cv.participant2_id = some (if a > b then a else b) ∧
        cv.participant1_name = (if a > b then nb else na) ∧
        cv.participant2_name = (if a > b then na else nb) ∧
        cv.participant1_avatar = (if a > b then vb else va) ∧
        cv.participant2_avatar = (if a > b then va else vb) := by
  rcases lt_trichotomy a b with h | h | h
  · have hab : ¬ a > b := lt_asymm h
    simp only [if_neg hab] at hnone
    have e1 : get_or_create_conversation tid a (some b) na nb va vb nm now db =
        ("c" ++ toString db.fresh,
         { db with
          conversations := db.conversations ++
            [({ id := "c" ++ toString db.fresh, thread_id := tid, name := nm,
                participant1_id := a, participant1_name := na,
                participant1_avatar := va, participant2_id := some b,
                participant2_name := nb, participant2_avatar := vb,
                updated_at := now } : ConversationRow)],
          fresh := db.fresh + 1 }) := by
      simp [get_or_create_conversation, hab, h, hnone]
    have hfind1 : List.find?
        (fun cv : ConversationRow => cv.thread_id == tid &&
          cv.participant1_id == a && cv.participant2_id == some b)
        (db.conversations ++
          [({ id := "c" ++ toString db.fresh, thread_id := tid, name := nm,
              participant1_id := a, participant1_name := na,
              participant1_avatar := va, participant2_id := some b,
              participant2_name := nb, participant2_avatar := vb,
              updated_at := now } : ConversationRow)]) =
        some ({ id := "c" ++ toString db.fresh, thread_id := tid, name := nm,
                participant1_id := a, participant1_name := na,
                participant1_avatar := va, participant2_id := some b,
                participant2_name := nb, participant2_avatar := vb,
                updated_at := now } : ConversationRow) := by
      rw [find_append_of_none _ hnone]
      simp
    have e2 : get_or_create_conversation tid b (some a) nb na vb va nmb now'
        ({ db with
          conversations := db.conversations ++
            [({ id := "c" ++ toString db.fresh, thread_id := tid, name := nm,
                participant1_id := a, participant1_name := na,
                participant1_avatar := va, participant2_id := some b,
                participant2_name := nb, participant2_avatar := vb,
                updated_at := now } : ConversationRow)],
          fresh := db.fresh + 1 }) =
        ("c" ++ toString db.fresh,
         { db with
          conversations := db.conversations ++
            [({ id := "c" ++ toString db.fresh, thread_id := tid, name := nm,
                participant1_id := a, participant1_name := na,
                participant1_avatar := va, participant2_id := some b,
                participant2_name := nb, participant2_avatar := vb,
                updated_at := now } : ConversationRow)],
          fresh := db.fresh + 1 }) := by
      simp [get_or_create_conversation, h, hfind1]
    exact ⟨_, _, e1, e2,
      ⟨_, List.mem_append_right _ (List.mem_singleton_self _), by simp [hab]⟩⟩
  · subst h
    have hab : ¬ a > a := lt_irrefl a
    simp only [if_neg hab] at hnone
    have e1 : get_or_create_conversation tid a (some a) na nb va vb nm now db =
        ("c" ++ toString db.fresh,
         { db with
          conversations := db.conversations ++
            [({ id := "c" ++ toString db.fresh, thread_id := tid, name := nm,
                participant1_id := a, participant1_name := na,
                participant1_avatar := va, participant2_id := some a,
                participant2_name := nb, participant2_avatar := vb,
                updated_at := now } : ConversationRow)],
          fresh := db.fresh + 1 }) := by
      simp [get_or_create_conversation, hab, hnone]
    have hfind1 : List.find?
        (fun cv : ConversationRow => cv.thread_id == tid &&
          cv.participant1_id == a && cv.participant2_id == some a)
        (db.conversations ++
          [({ id := "c" ++ toString db.fresh, thread_id := tid, name := nm,
              participant1_id := a, participant1_name := na,
              participant1_avatar := va, participant2_id := some a,
              participant2_name := nb, participant2_avatar := vb,
              updated_at := now } : ConversationRow)]) =
        some ({ id := "c" ++ toString db.fresh, thread_id := tid, name := nm,
                participant1_id := a, participant1_name := na,
                participant1_avatar := va, participant2_id := some a,
                participant2_name := nb, participant2_avatar := vb,
                updated_at := now } : ConversationRow) := by
      rw [find_append_of_none _ hnone]
      simp
    have e2 : get_or_create_conversation tid a (some a) nb na vb va nmb now'
        ({ db with
          conversations := db.conversations ++
            [({ id := "c" ++ toString db.fresh, thread_id := tid, name := nm,
                participant1_id := a, participant1_name := na,
                participant1_avatar := va, participant2_id := some a,
                participant2_name := nb, participant2_avatar := vb,
                updated_at := now } : ConversationRow)],
          fresh := db.fresh + 1 }) =
        ("c" ++ toString db.fresh,
         { db with
          conversations := db.conversations ++
            [({ id := "c" ++ toString db.fresh, thread_id := tid, name := nm,
                participant1_id := a, participant1_name := na,
                participant1_avatar := va, participant2_id := some a,
                participant2_name := nb, participant2_avatar := vb,
                updated_at := now } : ConversationRow)],
          fresh := db.fresh + 1 }) := by
      simp [get_or_create_conversation, hab, hfind1]
    exact ⟨_, _, e1, e2,
      ⟨_, List.mem_append_right _ (List.mem_singleton_self _), by simp [hab]⟩⟩
  · have hab : a > b := h
    have hnb : ¬ b > a := lt_asymm h
    simp only [if_pos hab] at hnone
    have e1 : get_or_create_conversation tid a (some b) na nb va vb nm now db =
        ("c" ++ toString db.fresh,
         { db with
          conversations := db.conversations ++
            [({ id := "c" ++ toString db.fresh, thread_id := tid, name := nm,
                participant1_id := b, participant1_name := nb,
                participant1_avatar := vb, participant2_id := some a,
                participant2_name := na, participant2_avatar := va,
                updated_at := now } : ConversationRow)],
          fresh := db.fresh + 1 }) := by
      simp [get_or_create_conversation, hab, hnone]
    have hfind1 : List.find?
        (fun cv : ConversationRow => cv.thread_id == tid &&
          cv.participant1_id == b && cv.participant2_id == some a)
        (db.conversations ++
          [({ id := "c" ++ toString db.fresh, thread_id := tid, name := nm,
              participant1_id := b, participant1_name := nb,
              participant1_avatar := vb, participant2_id := some a,
              participant2_name := na, participant2_avatar := va,
              updated_at := now } : ConversationRow)]) =
        some ({ id := "c" ++ toString db.fresh, thread_id := tid, name := nm,
                participant1_id := b, participant1_name := nb,
                participant1_avatar := vb, participant2_id := some a,
                participant2_name := na, participant2_avatar := va,
                updated_at := now } : ConversationRow) := by
      rw [find_append_of_none _ hnone]
      simp
    have e2 : get_or_create_conversation tid b (some a) nb na vb va nmb now'
        ({ db with
          conversations := db.conversations ++
            [({ id := "c" ++ toString db.fresh, thread_id := tid, name := nm,
                participant1_id := b, participant1_name := nb,
                participant1_avatar := vb, participant2_id := some a,
                participant2_name := na, participant2_avatar := va,
                updated_at := now } : ConversationRow)],
          fresh := db.fresh + 1 }) =
        ("c" ++ toString db.fresh,
         { db with
          conversations := db.conversations ++
            [({ id := "c" ++ toString db.fresh, thread_id := tid, name := nm,
                participant1_id := b, participant1_name := nb,
                participant1_avatar := vb, participant2_id := some a,
                participant2_name := na, participant2_avatar := va,
                updated_at := now } : ConversationRow)],
          fresh := db.fresh + 1 }) := by
      simp [get_or_create_conversation, hnb, hfind1]
    exact ⟨_, _, e1, e2,
      ⟨_, List.mem_append_right _ (List.mem_singleton_self _), by simp [hab]⟩⟩

/-- Witness: creating (bob, alice) and then (alice, bob) in thread t1 from
an empty store resolves to one conversation with alice (the lower id) in
slot 1. -/
theorem conversation_canonical_pairing_witness :
    ∃ cid db1,
      get_or_create_conversation "t1" "bob" (some "alice") (some "Bob")
        (some "Alice") (some "b.png") (some "a.png") (some "Chat") 0 {} = (cid, db1) ∧
      get_or_create_conversation "t1" "alice" (some "bob") (some "Alice")
        (some "Bob") (some "a.png") (some "b.png") (some "Chat2") 1 db1 = (cid, db1) ∧
      ∃ cv ∈ db1.conversations, cv.id = cid ∧ cv.thread_id = "t1" ∧
        cv.participant1_id = (if "bob" > "alice" then "alice" else "bob") ∧
        cv.participant2_id = some (if "bob" > "alice" then "bob" else "alice") ∧
        cv.participant1_name =
          (if "bob" > "alice" then some "Alice" else some "Bob") ∧
        cv.participant2_name =
          (if "bob" > "alice" then some "Bob" else some "Alice") ∧
        cv.participant1_avatar =
          (if "bob" > "alice" then some "a.png" else some "b.png") ∧
        cv.participant2_avatar =
          (if "bob" > "alice" then some "b.png" else some "a.png") :=
  conversation_canonical_pairing {} "t1" "bob" "alice" (some "Bob") (some "Alice")
    (some "b.png") (some "a.png") (some "Chat") (some "Chat2") 0 1 (by decide)

/-- C4: endpoint-level soft deletion is one-way and idempotent in effect.
A first DELETE by the sender overwrites content and text with the fixed
placeholder, forces the deletion-marker type, sets the deleted flag and
records the deletion time; a second DELETE on the same message (any caller,
any later time) reports the already-deleted success and leaves the store,
and in particular the recorded deletion timestamp, unchanged. -/
theorem soft_delete_one_way (db : DB) (tid cid mid uid uid2 : String)
    (now now2 : Nat) (m : MessageRow)
    (ht : thread_exists db tid = true) (hc : conversation_exists db cid = true)
    (hm : findMessage db mid = some m)
    (hconv : m.conversation_id = cid) (hth : m.thread_id = tid)
    (hdel : m.deleted = false) (hsender : m.sender_id = uid) :
    ∃ db1,
      handle_message_delete tid cid mid uid now db = (.deleted, db1) ∧
      (∃ m1, findMessage db1 mid = some m1 ∧
        m1.content = some "This message was deleted" ∧
        m1.text_content = some "This message was deleted" ∧
        m1.type = "deleted" ∧ m1.deleted = true ∧ m1.deleted_at = some now) ∧
      handle_message_delete tid cid mid uid2 now2 db1 = (.alreadyDeleted, db1) := by
  have hm' : db.messages.find? (fun m' => m'.id == mid) = some m := hm
  have hpm : (m.id == mid) = true :=
    List.find?_some (p := fun m' : MessageRow => m'.id == mid) hm'
  have edel1 : (delete_message mid now db).1 = true := by
    simp [delete_message, hm, hdel]
  have e0 : handle_message_delete tid cid mid uid now db =
      (.deleted, (delete_message mid now db).2) := by
    simp [handle_message_delete, ht, hc, hm, hconv, hth, hdel, hsender, edel1]
  have emsgs : (delete_message mid now db).2.messages =
      db.messages.map (fun m' =>
        if m'.id == mid then
          { m' with deleted := true, deleted_at := some now
                    content := some "This message was deleted"
                    text_content := some "This message was deleted"
                    type := "deleted" }
        else m') := by
    simp [delete_message, hm, hdel]
  have ethr : (delete_message mid now db).2.threads = db.threads := by
    simp [delete_message, hm, hdel]
  have econvs : (delete_message mid now db).2.conversations =
      db.conversations.map (fun c =>
        if c.id == m.conversation_id then
          { c with last_message := some "Message was deleted", updated_at := now }
        else c) := by
    simp [delete_message, hm, hdel]
  have hmsg : findMessage (delete_message mid now db).2 mid =
      some { m with deleted := true, deleted_at := some now
                    content := some "This message was deleted"
                    text_content := some "This message was deleted"
                    type := "deleted" } := by
    unfold findMessage
    rw [emsgs]
    rw [find_map_comm (p := fun m' : MessageRow => m'.id == mid)]
    · rw [hm']
      have hpm2 : m.id = mid := beq_iff_eq.mp hpm
      simp [hpm2]
    · intro a
      by_cases ha : (a.id == mid) = true
      · rw [if_pos ha]
      · rw [if_neg ha]
  have ht1 : thread_exists (delete_message mid now db).2 tid = true := by
    unfold thread_exists findThread at ht ⊢
    rw [ethr]
    exact ht
  have hc1 : conversation_exists (delete_message mid now db).2 cid = true := by
    unfold conversation_exists findConv at hc ⊢
    rw [econvs]
    rw [find_map_comm (p := fun c : ConversationRow => c.id == cid)]
    · cases hx : db.conversations.find? (fun c => c.id == cid) with
      | none => rw [hx] at hc; simp at hc
      | some c0 => simp
    · intro a
      by_cases ha : (a.id == m.conversation_id) = true
      · rw [if_pos ha]
      · rw [if_neg ha]
  refine ⟨(delete_message mid now db).2, e0, ⟨_, hmsg, rfl, rfl, rfl, rfl, rfl⟩, ?_⟩
  simp [handle_message_delete, ht1, hc1, hmsg, hconv, hth]

/-- Witness message for the soft-delete theorem. -/
def wMsg4 : MessageRow :=
  { id := "m1", conversation_id := "c1", thread_id := "t1", sender_id := "alice"
    sender_type := "client", type := "text", content := some "hello"
    text_content := some "hello", timestamp := 1 }

/-- Witness store for the soft-delete theorem. -/
def wDB4 : DB :=
  { threads := [{ id := "t1", title := "T", description := ""
                  campaign_id := some "camp", created_by := "alice"
                  status := "active", updated_at := 0 }]
    conversations := [{ id := "c1", thread_id := "t1", participant1_id := "alice" }]
    messages := [wMsg4] }

/-- Witness: alice deletes her message at time 5; a later DELETE by bob at
time 9 reports the already-deleted success and changes nothing. -/
theorem soft_delete_one_way_witness :
    ∃ db1,
      handle_message_delete "t1" "c1" "m1" "alice" 5 wDB4 = (.deleted, db1) ∧
      (∃ m1, findMessage db1 "m1" = some m1 ∧
        m1.content = some "This message was deleted" ∧
        m1.text_content = some "This message was deleted" ∧
        m1.type = "deleted" ∧ m1.deleted = true ∧ m1.deleted_at = some 5) ∧
      handle_message_delete "t1" "c1" "m1" "bob" 9 db1 = (.alreadyDeleted, db1) :=
  soft_delete_one_way wDB4 "t1" "c1" "m1" "alice" "bob" 5 9 wMsg4 (by decide)
    (by decide) (by decide) rfl rfl rfl rfl

/-- C10: the stored sender of a message send is the body sender_id when one
is present and the authenticated caller uid only as a default; the endpoint
succeeds for any sender_id value (no check relating it to the caller or the
participants), and the only-sender-may-delete check of the DELETE endpoint
compares the caller against that stored sender. -/
theorem sender_id_spoofable (db : DB) (tid cid uid : String)
    (an ae : Option String) (body : SendBody) (now : Nat) (c : ConversationRow)
    (ht : thread_exists db tid = true)
    (hfind : findConv db cid = some c)
    (hct : c.thread_id = tid)
    (hpart : c.participant1_id = uid ∨ c.participant2_id = some uid)
    (hfresh : ∀ m' ∈ db.messages, m'.id ≠ "m" ++ toString db.fresh) :
    handle_conversation_post_json tid cid uid an ae (some body) now db =
      (.created ("m" ++ toString db.fresh), (create_message (jsonMessageData tid cid uid an ae body now db) now db).2) ∧
    findMessage (create_message (jsonMessageData tid cid uid an ae body now db) now db).2 ("m" ++ toString db.fresh) = some (messageRowOf (jsonMessageData tid cid uid an ae body now db) ("m" ++ toString db.fresh)) ∧
    (messageRowOf (jsonMessageData tid cid uid an ae body now db) ("m" ++ toString db.fresh)).sender_id = body.sender_id.getD uid ∧
    (∀ w now2, w ≠ body.sender_id.getD uid →
      (handle_message_delete tid cid ("m" ++ toString db.fresh) w now2 (create_message (jsonMessageData tid cid uid an ae body now db) now db).2).1 = .notSender) ∧
    (∀ now2,
      (handle_message_delete tid cid ("m" ++ toString db.fresh) (body.sender_id.getD uid) now2
        (create_message (jsonMessageData tid cid uid an ae body now db) now db).2).1 = .deleted) := by
  have hconvex : conversation_exists db cid = true := by
    unfold conversation_exists
    rw [show findConv db cid = some c from hfind]
    rfl
  have hcond : (c.participant1_id != uid && c.participant2_id != some uid) = false := by
    rcases hpart with h | h <;> simp [h]
  have hjid : (jsonMessageData tid cid uid an ae body now db).id = none := rfl
  have hrowdel : (messageRowOf (jsonMessageData tid cid uid an ae body now db) ("m" ++ toString db.fresh)).deleted = false := rfl
  have hrid : (messageRowOf (jsonMessageData tid cid uid an ae body now db) ("m" ++ toString db.fresh)).id = "m" ++ toString db.fresh := rfl
  have hsid : (messageRowOf (jsonMessageData tid cid uid an ae body now db) ("m" ++ toString db.fresh)).sender_id = body.sender_id.getD uid := rfl
  have hconvid : (messageRowOf (jsonMessageData tid cid uid an ae body now db) ("m" ++ toString db.fresh)).conversation_id = cid := rfl
  have hthid : (messageRowOf (jsonMessageData tid cid uid an ae body now db) ("m" ++ toString db.fresh)).thread_id = tid := rfl
  have hmid : (create_message (jsonMessageData tid cid uid an ae body now db) now db).1 = "m" ++ toString db.fresh := by
    simp [create_message, hjid]
  have em : (create_message (jsonMessageData tid cid uid an ae body now db) now db).2.messages = db.messages ++ [messageRowOf (jsonMessageData tid cid uid an ae body now db) ("m" ++ toString db.fresh)] := by
    simp [create_message, insertMessageRow, hrowdel, hjid]
  have ethr : (create_message (jsonMessageData tid cid uid an ae body now db) now db).2.threads =
      db.threads.map (fun t =>
        if t.id == (messageRowOf (jsonMessageData tid cid uid an ae body now db) ("m" ++ toString db.fresh)).thread_id then { t with updated_at := now } else t) := by
    simp [create_message, insertMessageRow, hrowdel, hjid]
  have econv : (create_message (jsonMessageData tid cid uid an ae body now db) now db).2.conversations =
      db.conversations.map (fun cv =>
        if cv.id == (messageRowOf (jsonMessageData tid cid uid an ae body now db) ("m" ++ toString db.fresh)).conversation_id then
          { cv with
            last_message := some (coalesceMsgText (messageRowOf (jsonMessageData tid cid uid an ae body now db) ("m" ++ toString db.fresh)).text_content (messageRowOf (jsonMessageData tid cid uid an ae body now db) ("m" ++ toString db.fresh)).content)
            last_message_time := some (messageRowOf (jsonMessageData tid cid uid an ae body now db) ("m" ++ toString db.fresh)).timestamp
            updated_at := now }
        else cv) := by
    simp [create_message, insertMessageRow, hrowdel, hjid]
  have hnone : db.messages.find? (fun m' => m'.id == ("m" ++ toString db.fresh)) = none := by
    rw [List.find?_eq_none]
    intro m' hm'
    simpa using hfresh m' hm'
  have hfmsg : findMessage (create_message (jsonMessageData tid cid uid an ae body now db) now db).2 ("m" ++ toString db.fresh) = some (messageRowOf (jsonMessageData tid cid uid an ae body now db) ("m" ++ toString db.fresh)) := by
    unfold findMessage
    rw [em, find_append_of_none _ hnone]
    simp [hrid]
  have ht1 : thread_exists (create_message (jsonMessageData tid cid uid an ae body now db) now db).2 tid = true := by
    unfold thread_exists findThread at ht ⊢
    rw [ethr, find_map_comm (p := fun t : ThreadRow => t.id == tid)]
    · cases hx : db.threads.find? (fun t => t.id == tid) with
      | none => rw [hx] at ht; simp at ht
      | some t0 => simp
    · intro a
      by_cases ha : (a.id == (messageRowOf (jsonMessageData tid cid uid an ae body now db) ("m" ++ toString db.fresh)).thread_id) = true
      · rw [if_pos ha]
      · rw [if_neg ha]
  have hc1 : conversation_exists (create_message (jsonMessageData tid cid uid an ae body now db) now db).2 cid = true := by
    unfold conversation_exists findConv at hconvex ⊢
    rw [econv, find_map_comm (p := fun cv : ConversationRow => cv.id == cid)]
    · cases hx : db.conversations.find? (fun cv => cv.id == cid) with
      | none => rw [hx] at hconvex; simp at hconvex
      | some c0 => simp
    · intro a
      by_cases ha : (a.id == (messageRowOf (jsonMessageData tid cid uid an ae body now db) ("m" ++ toString db.fresh)).conversation_id) = true
      · rw [if_pos ha]
      · rw [if_neg ha]
  refine ⟨?_, hfmsg, hsid, ?_, ?_⟩
  · simp [handle_conversation_post_json, ht, hconvex, hfind, hct, hcond, hmid]
  · intro w now2 hw
    have hsne : ((messageRowOf (jsonMessageData tid cid uid an ae body now db) ("m" ++ toString db.fresh)).sender_id != w) = true := by
      simp only [hsid, bne_iff_ne]
      exact Ne.symm hw
    simp [handle_message_delete, ht1, hc1, hfmsg, hsne, hconvid, hthid, hrowdel]
  · intro now2
    have hdel1 : (delete_message ("m" ++ toString db.fresh) now2 (create_message (jsonMessageData tid cid uid an ae body now db) now db).2).1 = true := by
      simp [delete_message, hfmsg, hrowdel]
    have hseq : ((messageRowOf (jsonMessageData tid cid uid an ae body now db) ("m" ++ toString db.fresh)).sender_id != body.sender_id.getD uid) = false := by
      simp [hsid]
    simp [handle_message_delete, ht1, hc1, hfmsg, hseq, hconvid, hthid, hrowdel, hdel1]

/-- Witness conversation for the sender-spoofing theorem. -/
def wConv10 : ConversationRow :=
  { id := "c1", thread_id := "t1", participant1_id := "alice"
    participant2_id := some "bob", participant2_name := some "Bob"
    participant2_avatar := some "" }

/-- Witness store for the sender-spoofing theorem. -/
def wDB10 : DB :=
  { threads := [{ id := "t1", title := "T", description := ""
                  campaign_id := some "camp", created_by := "alice"
                  status := "active", updated_at := 0 }]
    conversations := [wConv10] }

/-- Witness body naming mallory, who is neither the caller nor a
participant, as the sender. -/
def wBody10 : SendBody := { sender_id := some "mallory", content := some "hey" }

/-- Witness: alice sends with a body naming mallory as sender; the message
is stored with sender mallory and only mallory passes the delete check. -/
theorem sender_id_spoofable_witness :
    handle_conversation_post_json "t1" "c1" "alice" none none (some wBody10) 7 wDB10 =
      (.created ("m" ++ toString wDB10.fresh),
       (create_message (jsonMessageData "t1" "c1" "alice" none none wBody10 7 wDB10)
         7 wDB10).2) ∧
    findMessage (create_message (jsonMessageData "t1" "c1" "alice" none none wBody10 7 wDB10)
        7 wDB10).2 ("m" ++ toString wDB10.fresh) =
      some (messageRowOf (jsonMessageData "t1" "c1" "alice" none none wBody10 7 wDB10)
        ("m" ++ toString wDB10.fresh)) ∧
    (messageRowOf (jsonMessageData "t1" "c1" "alice" none none wBody10 7 wDB10)
        ("m" ++ toString wDB10.fresh)).sender_id = wBody10.sender_id.getD "alice" ∧
    (∀ w now2, w ≠ wBody10.sender_id.getD "alice" →
      (handle_message_delete "t1" "c1" ("m" ++ toString wDB10.fresh) w now2
        (create_message (jsonMessageData "t1" "c1" "alice" none none wBody10 7 wDB10)
          7 wDB10).2).1 = .notSender) ∧
    (∀ now2,
      (handle_message_delete "t1" "c1" ("m" ++ toString wDB10.fresh)
        (wBody10.sender_id.getD "alice") now2
        (create_message (jsonMessageData "t1" "c1" "alice" none none wBody10 7 wDB10)
          7 wDB10).2).1 = .deleted) :=
  sender_id_spoofable wDB10 "t1" "c1" "alice" none none wBody10 7 wConv10
    (by decide) (by decide) rfl (Or.inl rfl) (by decide)

/-- Characterisation of the access SQL: true exactly when some thread row
has the requested id and the user either created it or participates in a
conversation of the thread. -/
theorem user_has_thread_access_iff (db : DB) (tid uid : String) :
    user_has_thread_access db tid uid = true ↔
      ∃ t ∈ db.threads, t.id = tid ∧
        (t.created_by = uid ∨ ∃ cv ∈ db.conversations, cv.thread_id = tid ∧
          (cv.participant1_id = uid ∨ cv.participant2_id = some uid)) := by
  unfold user_has_thread_access
  rw [List.any_eq_true]
  constructor
  · rintro ⟨t, htm, hcond⟩
    simp only [Bool.and_eq_true, Bool.or_eq_true, beq_iff_eq, List.any_eq_true] at hcond
    rcases hcond with ⟨hid, hcreated | ⟨cv, hcvm, hth, hp⟩⟩
    · exact ⟨t, htm, hid, Or.inl hcreated⟩
    · exact ⟨t, htm, hid, Or.inr ⟨cv, hcvm, hth.trans hid, hp⟩⟩
  · rintro ⟨t, htm, hid, hcreated | ⟨cv, hcvm, hth, hp⟩⟩
    · refine ⟨t, htm, ?_⟩
      simp only [Bool.and_eq_true, Bool.or_eq_true, beq_iff_eq]
      exact ⟨hid, Or.inl hcreated⟩
    · refine ⟨t, htm, ?_⟩
      simp only [Bool.and_eq_true, Bool.or_eq_true, beq_iff_eq, List.any_eq_true]
      exact ⟨hid, Or.inr ⟨cv, hcvm, hth.trans hid.symm, hp⟩⟩

/-- C8: access is granted exactly to the thread creator and to participants
of its conversations; without it the get-thread endpoint answers Forbidden
for an existing thread; and after the user joins an open conversation under
the thread the same call succeeds and returns only conversations in which
the user participates. -/
theorem thread_access_scoping (db : DB) (tid uid : String) :
    (user_has_thread_access db tid uid = true ↔
      ∃ t ∈ db.threads, t.id = tid ∧
        (t.created_by = uid ∨ ∃ cv ∈ db.conversations, cv.thread_id = tid ∧
          (cv.participant1_id = uid ∨ cv.participant2_id = some uid))) ∧
    (thread_exists db tid = true → user_has_thread_access db tid uid = false →
      get_thread tid uid db = .forbidden) ∧
    (∀ cid now cu u, thread_exists db tid = true →
      findConv db cid = some cu → cu.thread_id = tid →
      cu.participant2_id = none → cu.participant1_id ≠ uid →
      findUser db uid = some u →
      (join_conversation tid cid uid now db).1 = .joined ∧
      user_has_thread_access (join_conversation tid cid uid now db).2 tid uid = true ∧
      ∃ t convs,
        get_thread tid uid (join_conversation tid cid uid now db).2 = .ok t convs ∧
        ∀ c' ∈ convs, c'.participant1_id = uid ∨ c'.participant2_id = some uid) := by
  refine ⟨user_has_thread_access_iff db tid uid, ?_, ?_⟩
  · intro hex hacc
    simp [get_thread, hex, hacc]
  · intro cid now cu u ht hfind hcut hopen hne hu
    have hfind' : db.conversations.find? (fun c' => c'.id == cid) = some cu := hfind
    have hcumem : cu ∈ db.conversations := List.mem_of_find?_eq_some hfind'
    have hpcu : (cu.id == cid) = true :=
      List.find?_some (p := fun c' : ConversationRow => c'.id == cid) hfind'
    have hconvex : conversation_exists db cid = true := by
      unfold conversation_exists
      rw [show findConv db cid = some cu from hfind]
      rfl
    have hp2 : cu.participant2_id.isSome = false := by rw [hopen]; rfl
    have hp1 : (cu.participant1_id == uid) = false := by
      simp [hne]
    have hmatched : (db.conversations.any
        (fun c' => c'.id == cid && c'.participant2_id == none)) = true := by
      rw [List.any_eq_true]
      exact ⟨cu, hcumem, by simp [hpcu, hopen]⟩
    have hpre : join_pre tid cid uid db = .ok (u.display_name, u.photo_url) := by
      simp [join_pre, ht, hconvex, hfind, hp2, hp1, hu]
    have hjoin : join_conversation tid cid uid now db =
        (.joined, { db with conversations := db.conversations.map (fun c' =>
          if c'.id == cid && c'.participant2_id == none then
            { c' with participant2_id := some uid
                      participant2_name := u.display_name
                      participant2_avatar := u.photo_url
                      updated_at := now }
          else c') }) := by
      rw [join_conversation, hpre]
      simp [join_finish, add_participant2_to_conversation, hmatched]
    rw [hjoin]
    have hmem1 : ({ cu with participant2_id := some uid
                            participant2_name := u.display_name
                            participant2_avatar := u.photo_url
                            updated_at := now } : ConversationRow) ∈
        (db.conversations.map (fun c' =>
          if c'.id == cid && c'.participant2_id == none then
            { c' with participant2_id := some uid
                      participant2_name := u.display_name
                      participant2_avatar := u.photo_url
                      updated_at := now }
          else c')) := by
      refine List.mem_map.mpr ⟨cu, hcumem, ?_⟩
      rw [if_pos (by simp [hpcu, hopen])]
    obtain ⟨t0, hx⟩ : ∃ t0, findThread db tid = some t0 := by
      cases hxx : findThread db tid with
      | none => rw [thread_exists, hxx] at ht; simp at ht
      | some t => exact ⟨t, rfl⟩
    have ht0mem : t0 ∈ db.threads := List.mem_of_find?_eq_some hx
    have ht0id : (t0.id == tid) = true :=
      List.find?_some (p := fun t : ThreadRow => t.id == tid) hx
    have hacc1 : user_has_thread_access
        { db with conversations := db.conversations.map (fun c' =>
          if c'.id == cid && c'.participant2_id == none then
            { c' with participant2_id := some uid
                      participant2_name := u.display_name
                      participant2_avatar := u.photo_url
                      updated_at := now }
          else c') } tid uid = true := by
      rw [user_has_thread_access_iff]
      refine ⟨t0, ht0mem, beq_iff_eq.mp ht0id, Or.inr ⟨_, hmem1, hcut, Or.inr rfl⟩⟩
    have hext : thread_exists
        { db with conversations := db.conversations.map (fun c' =>
          if c'.id == cid && c'.participant2_id == none then
            { c' with participant2_id := some uid
                      participant2_name := u.display_name
                      participant2_avatar := u.photo_url
                      updated_at := now }
          else c') } tid = true := by
      unfold thread_exists findThread at ht ⊢
      exact ht
    refine ⟨rfl, hacc1, ?_⟩
    have hgt : get_thread tid uid
        { db with conversations := db.conversations.map (fun c' =>
          if c'.id == cid && c'.participant2_id == none then
            { c' with participant2_id := some uid
                      participant2_name := u.display_name
                      participant2_avatar := u.photo_url
                      updated_at := now }
          else c') } = .ok t0 (get_conversations_by_thread
            { db with conversations := db.conversations.map (fun c' =>
              if c'.id == cid && c'.participant2_id == none then
                { c' with participant2_id := some uid
                          participant2_name := u.display_name
                          participant2_avatar := u.photo_url
                          updated_at := now }
              else c') } tid (some uid)) := by
      have hxt : findThread
          { db with conversations := db.conversations.map (fun c' =>
            if c'.id == cid && c'.participant2_id == none then
              { c' with participant2_id := some uid
                        participant2_name := u.display_name
                        participant2_avatar := u.photo_url
                        updated_at := now }
            else c') } tid = some t0 := hx
      simp only [get_thread, hext, hacc1, hxt, Bool.not_true]
      rfl
    refine ⟨t0, _, hgt, ?_⟩
    intro c' hc'
    have := (List.mem_filter.mp hc').2
    simp only [Bool.and_eq_true, Bool.or_eq_true, beq_iff_eq] at this
    exact this.2

/-- Witness user for the access-scoping theorem. -/
def wUser8 : UserRow := { firebase_uid := "xavier", display_name := some "Xavier" }

/-- Witness conversation (open slot, owned by owner1) for access scoping. -/
def wConv8 : ConversationRow :=
  { id := "c1", thread_id := "t1", participant1_id := "owner1" }

/-- Witness store for the access-scoping theorem. -/
def wDB8 : DB :=
  { users := [wUser8]
    threads := [{ id := "t1", title := "T", description := ""
                  campaign_id := some "camp", created_by := "owner1"
                  status := "active", updated_at := 0 }]
    conversations := [wConv8] }

/-- Witness: xavier is forbidden on thread t1, joins conversation c1, and
then the same call succeeds returning only conversations xavier is in. -/
theorem thread_access_scoping_witness :
    get_thread "t1" "xavier" wDB8 = .forbidden ∧
    (join_conversation "t1" "c1" "xavier" 5 wDB8).1 = .joined ∧
    user_has_thread_access (join_conversation "t1" "c1" "xavier" 5 wDB8).2
      "t1" "xavier" = true ∧
    ∃ t convs,
      get_thread "t1" "xavier" (join_conversation "t1" "c1" "xavier" 5 wDB8).2 =
        .ok t convs ∧
      ∀ c' ∈ convs, c'.participant1_id = "xavier" ∨
        c'.participant2_id = some "xavier" :=
  let h := thread_access_scoping wDB8 "t1" "xavier"
  let hj := h.2.2 "c1" 5 wConv8 wUser8 (by decide) (by decide) rfl rfl
    (by decide) (by decide)
  ⟨h.2.1 (by decide) (by decide), hj.1, hj.2.1, hj.2.2⟩

/-- Witness store for the summary claims: one thread, one conversation. -/
def wDB5 : DB :=
  { threads := [{ id := "t1", title := "T", description := ""
                  campaign_id := some "camp", created_by := "alice"
                  status := "active", updated_at := 0 }]
    conversations := [{ id := "c1", thread_id := "t1", participant1_id := "alice" }] }

/-- First appended message (text a, time 10). -/
def wMd5a : MessageData :=
  { id := some "m1", conversation_id := "c1", thread_id := "t1"
    sender_id := "alice", sender_type := "client", type := "text"
    content := some "a", text_content := some "a", timestamp := 10 }

/-- Second appended message (text b, time 20). -/
def wMd5b : MessageData :=
  { id := some "m2", conversation_id := "c1", thread_id := "t1"
    sender_id := "alice", sender_type := "client", type := "text"
    content := some "b", text_content := some "b", timestamp := 20 }

/-- C5 counterexample: append a then b, soft-delete the OLDER message a.
The latest non-deleted message is still b, but the delete trigger has
unconditionally overwritten the conversation last_message with the deletion
placeholder, so the stored summary no longer reflects the latest non-deleted
message. -/
theorem summaries_stale_counterexample :
    (specLatestNonDeleted
        (delete_message "m1" 30
          (create_message wMd5b 20 (create_message wMd5a 10 wDB5).2).2).2 "c1").map
      (fun m => coalesceMsgText m.text_content m.content) = some "b" ∧
    ∃ cv ∈ (delete_message "m1" 30
        (create_message wMd5b 20 (create_message wMd5a 10 wDB5).2).2).2.conversations,
      cv.id = "c1" ∧ cv.last_message = some "Message was deleted" ∧
      cv.last_message ≠ some "b" := by
  decide

/-- C5 amended: appending a non-deleted message atomically sets the owning
conversation last-message text and time and the owning thread updated-at,
and is skipped for an already-deleted row; soft deletion of a non-deleted
message always reports success and overwrites the owning conversation
last_message with the fixed placeholder regardless of whether that message
was the latest, while deleting an already-deleted message leaves the
conversation rows unchanged. -/
theorem summaries_on_write_amended :
    (∀ (row : MessageRow) (now : Nat) (db : DB), row.deleted = false →
      (insertMessageRow row now db).messages = db.messages ++ [row] ∧
      (∀ cv ∈ (insertMessageRow row now db).conversations,
        cv.id = row.conversation_id →
        cv.last_message = some (coalesceMsgText row.text_content row.content) ∧
        cv.last_message_time = some row.timestamp ∧ cv.updated_at = now) ∧
      (∀ t ∈ (insertMessageRow row now db).threads, t.id = row.thread_id →
        t.updated_at = now)) ∧
    (∀ (row : MessageRow) (now : Nat) (db : DB), row.deleted = true →
      insertMessageRow row now db = { db with messages := db.messages ++ [row] }) ∧
    (∀ (mid : String) (now : Nat) (db : DB) (m : MessageRow),
      findMessage db mid = some m → m.deleted = false →
      (delete_message mid now db).1 = true ∧
      (∀ cv ∈ (delete_message mid now db).2.conversations,
        cv.id = m.conversation_id →
        cv.last_message = some "Message was deleted" ∧ cv.updated_at = now)) ∧
    (∀ (mid : String) (now : Nat) (db : DB) (m : MessageRow),
      findMessage db mid = some m → m.deleted = true →
      (delete_message mid now db).1 = true ∧
      (delete_message mid now db).2.conversations = db.conversations) := by
  refine ⟨?_, ?_, ?_, ?_⟩
  · intro row now db hdel
    refine ⟨by simp [insertMessageRow, hdel], ?_, ?_⟩
    · intro cv hcv hid
      have hconvs : (insertMessageRow row now db).conversations =
          db.conversations.map (fun c =>
            if c.id == row.conversation_id then
              { c with last_message := some (coalesceMsgText row.text_content row.content)
                       last_message_time := some row.timestamp
                       updated_at := now }
            else c) := by
        simp [insertMessageRow, hdel]
      rw [hconvs] at hcv
      rcases List.mem_map.mp hcv with ⟨c0, _, heq⟩
      by_cases h0 : (c0.id == row.conversation_id) = true
      · rw [if_pos h0] at heq
        rw [← heq]
        exact ⟨rfl, rfl, rfl⟩
      · rw [if_neg h0] at heq
        rw [← heq] at hid
        exact absurd (beq_iff_eq.mpr hid) h0
    · intro t htm hid
      have hthr : (insertMessageRow row now db).threads =
          db.threads.map (fun t =>
            if t.id == row.thread_id then { t with updated_at := now } else t) := by
        simp [insertMessageRow, hdel]
      rw [hthr] at htm
      rcases List.mem_map.mp htm with ⟨t0, _, heq⟩
      by_cases h0 : (t0.id == row.thread_id) = true
      · rw [if_pos h0] at heq
        rw [← heq]
      · rw [if_neg h0] at heq
        rw [← heq] at hid
        exact absurd (beq_iff_eq.mpr hid) h0
  · intro row now db hdel
    simp [insertMessageRow, hdel]
  · intro mid now db m hm hdel
    refine ⟨by simp [delete_message, hm, hdel], ?_⟩
    intro cv hcv hid
    have hconvs : (delete_message mid now db).2.conversations =
        db.conversations.map (fun c =>
          if c.id == m.conversation_id then
            { c with last_message := some "Message was deleted", updated_at := now }
          else c) := by
      simp [delete_message, hm, hdel]
    rw [hconvs] at hcv
    rcases List.mem_map.mp hcv with ⟨c0, _, heq⟩
    by_cases h0 : (c0.id == m.conversation_id) = true
    · rw [if_pos h0] at heq
      rw [← heq]
      exact ⟨rfl, rfl⟩
    · rw [if_neg h0] at heq
      rw [← heq] at hid
      exact absurd (beq_iff_eq.mpr hid) h0
  · intro mid now db m hm hdel
    constructor
    · simp [delete_message, hm, hdel]
    · simp [delete_message, hm, hdel]

/-- Witness: the amended summary facts evaluated on the concrete store, for
the first append, a deleted-row insert, the stale-making deletion of m1 and
a repeated deletion of m1. -/
theorem summaries_on_write_amended_witness :
    ((insertMessageRow (messageRowOf wMd5a "m1") 10 wDB5).messages =
      wDB5.messages ++ [messageRowOf wMd5a "m1"]) ∧
    (insertMessageRow { messageRowOf wMd5a "m1" with deleted := true } 10 wDB5 =
      { wDB5 with messages := wDB5.messages ++
          [{ messageRowOf wMd5a "m1" with deleted := true }] }) ∧
    ((delete_message "m1" 30
        (create_message wMd5b 20 (create_message wMd5a 10 wDB5).2).2).1 = true) ∧
    ((delete_message "m1" 40
        (delete_message "m1" 30
          (create_message wMd5b 20 (create_message wMd5a 10 wDB5).2).2).2).2.conversations =
      (delete_message "m1" 30
        (create_message wMd5b 20 (create_message wMd5a 10 wDB5).2).2).2.conversations) :=
  ⟨(summaries_on_write_amended.1 (messageRowOf wMd5a "m1") 10 wDB5 rfl).1,
   summaries_on_write_amended.2.1 { messageRowOf wMd5a "m1" with deleted := true }
     10 wDB5 rfl,
   (summaries_on_write_amended.2.2.1 "m1" 30
     (create_message wMd5b 20 (create_message wMd5a 10 wDB5).2).2
     (messageRowOf wMd5a "m1") (by decide) (by decide)).1,
   (summaries_on_write_amended.2.2.2 "m1" 40
     (delete_message "m1" 30
       (create_message wMd5b 20 (create_message wMd5a 10 wDB5).2).2).2
     { messageRowOf wMd5a "m1" with
       deleted := true, deleted_at := some 30
       content := some "This message was deleted"
       text_content := some "This message was deleted"
       type := "deleted" }
     (by decide) (by decide)).2⟩

/-- A raised create_thread never commits anything: on success the
conversations table is untouched. -/
theorem create_thread2_conversations (d : ThreadData) (now : Nat)
    (dbPre dbx : DB) (r : String × DB)
    (h : create_thread2 d now dbPre dbx = some r) :
    r.2.conversations = dbx.conversations := by
  unfold create_thread2 at h
  simp only [] at h
  split at h
  · cases h
    rfl
  · split at h
    · split at h
      · split at h
        · cases h
          rfl
        · cases h
      · cases h
    · cases h
      rfl

/-- The all-null side of the participant-2 slot invariant on one row: an
open slot has null name and avatar too. -/
def invRow (cv : ConversationRow) : Prop :=
  cv.participant2_id = none →
    cv.participant2_name = none ∧ cv.participant2_avatar = none

/-- get_or_create_conversation only ever appends to the conversations
table (or leaves it unchanged on a lookup hit). -/
theorem get_or_create_conversation_conversations (tid p1 : String)
    (p2 : Option String) (n1 n2 a1 a2 nm : Option String) (now : Nat) (db : DB) :
    (get_or_create_conversation tid p1 p2 n1 n2 a1 a2 nm now db).2.conversations =
      db.conversations ∨
    ∃ row, row.participant2_id.isSome = (p2.isSome) ∧ invRow row ∧
      (get_or_create_conversation tid p1 p2 n1 n2 a1 a2 nm now db).2.conversations =
        db.conversations ++ [row] := by
  unfold get_or_create_conversation
  cases p2 with
  | none => exact Or.inr ⟨_, rfl, fun _ => ⟨rfl, rfl⟩, rfl⟩
  | some q =>
    simp only
    split
    · exact Or.inl rfl
    · exact Or.inr ⟨_, rfl, fun h => by simp at h, rfl⟩

/-- The open-slot invariant over the store. -/
def openSlotInvariant (db : DB) : Prop := ∀ cv ∈ db.conversations, invRow cv

/-- A filled participant-2 slot survives every modelled store operation
with its identity and all three fields intact. -/
theorem p2_slot_immutable (db : DB) (op : DBOp) (c0 : ConversationRow)
    (hc0 : c0 ∈ db.conversations) (hs : c0.participant2_id.isSome = true) :
    ∃ c1 ∈ (applyOp op db).conversations, c1.id = c0.id ∧
      c1.participant2_id = c0.participant2_id ∧
      c1.participant2_name = c0.participant2_name ∧
      c1.participant2_avatar = c0.participant2_avatar := by
  have self : ∀ l : List ConversationRow, c0 ∈ l →
      ∃ c1 ∈ l, c1.id = c0.id ∧ c1.participant2_id = c0.participant2_id ∧
        c1.participant2_name = c0.participant2_name ∧
        c1.participant2_avatar = c0.participant2_avatar :=
    fun l hm => ⟨c0, hm, rfl, rfl, rfl, rfl⟩
  have viaMap : ∀ (f : ConversationRow → ConversationRow),
      (f c0).id = c0.id → (f c0).participant2_id = c0.participant2_id →
      (f c0).participant2_name = c0.participant2_name →
      (f c0).participant2_avatar = c0.participant2_avatar →
      ∃ c1 ∈ db.conversations.map f, c1.id = c0.id ∧
        c1.participant2_id = c0.participant2_id ∧
        c1.participant2_name = c0.participant2_name ∧
        c1.participant2_avatar = c0.participant2_avatar :=
    fun f h1 h2 h3 h4 => ⟨f c0, List.mem_map_of_mem f hc0, h1, h2, h3, h4⟩
  have hnotnone : (c0.participant2_id == none) = false := by
    cases hx : c0.participant2_id with
    | none => rw [hx] at hs; simp at hs
    | some v => rfl
  cases op with
  | thrCreate d now =>
    show ∃ c1 ∈ (match create_thread d now db with
      | some r => r.2
      | none => db).conversations, _
    cases hcr : create_thread d now db with
    | none => exact self _ hc0
    | some r =>
      rw [create_thread2_conversations d now db db r hcr]
      exact self _ hc0
  | convGetOrCreate tid p1 p2 n1 n2 a1 a2 nm now =>
    show ∃ c1 ∈ (get_or_create_conversation tid p1 p2 n1 n2 a1 a2 nm now db).2.conversations, _
    rcases get_or_create_conversation_conversations tid p1 p2 n1 n2 a1 a2 nm now db with
      h | ⟨row, _, _, h⟩
    · rw [h]; exact self _ hc0
    · rw [h]; exact self _ (List.mem_append_left _ hc0)
  | convJoin cid p2 n a now =>
    show ∃ c1 ∈ ((add_participant2_to_conversation cid p2 n a now db).2).conversations, _
    have hconvs : (add_participant2_to_conversation cid p2 n a now db).2.conversations =
        db.conversations.map (fun cv =>
          if cv.id == cid && cv.participant2_id == none then
            { cv with participant2_id := some p2, participant2_name := n
                      participant2_avatar := a, updated_at := now }
          else cv) := rfl
    rw [hconvs]
    refine viaMap _ ?_ ?_ ?_ ?_ <;> rw [if_neg (by simp [hnotnone])]
  | convMarkRead cid =>
    show ∃ c1 ∈ ((update_conversation_read_status_detailed cid db).2).conversations, _
    unfold update_conversation_read_status_detailed
    cases hf : findConv db cid with
    | none => exact self _ hc0
    | some cr =>
      simp only []
      by_cases hgt : cr.unread_count > 0
      · rw [if_pos hgt]
        refine viaMap _ ?_ ?_ ?_ ?_ <;>
          by_cases hi : (c0.id == cid) = true <;> simp [clearUnreadCount, hi]
      · rw [if_neg hgt]
        exact self _ hc0
  | msgInsert row now =>
    show ∃ c1 ∈ (insertMessageRow row now db).conversations, _
    unfold insertMessageRow
    by_cases hd : row.deleted = true
    · rw [if_pos hd]
      exact self _ hc0
    · rw [if_neg hd]
      refine viaMap _ ?_ ?_ ?_ ?_ <;>
        by_cases hi : (c0.id == row.conversation_id) = true <;> simp [hi]
  | msgDelete mid now =>
    show ∃ c1 ∈ ((delete_message mid now db).2).conversations, _
    unfold delete_message
    cases hf : findMessage db mid with
    | none => exact self _ hc0
    | some old =>
      simp only []
      by_cases hd : old.deleted = true
      · rw [if_pos hd]
        exact self _ hc0
      · rw [if_neg hd]
        refine viaMap _ ?_ ?_ ?_ ?_ <;>
          by_cases hi : (c0.id == old.conversation_id) = true <;> simp [hi]

/-- The open-slot invariant (all three participant-2 fields null together
while the slot is open) is preserved by every modelled store operation. -/
theorem open_slot_invariant_preserved (db : DB) (op : DBOp)
    (hinv : openSlotInvariant db) : openSlotInvariant (applyOp op db) := by
  have hmap : ∀ (f : ConversationRow → ConversationRow),
      (∀ x ∈ db.conversations, invRow (f x)) →
      ∀ cv ∈ db.conversations.map f, invRow cv := by
    intro f hf cv hcv
    rcases List.mem_map.mp hcv with ⟨x, hx, hfx⟩
    rw [← hfx]
    exact hf x hx
  have hsame : ∀ (f : ConversationRow → ConversationRow),
      (∀ x, (f x).participant2_id = x.participant2_id ∧
        (f x).participant2_name = x.participant2_name ∧
        (f x).participant2_avatar = x.participant2_avatar) →
      ∀ x ∈ db.conversations, invRow (f x) := by
    intro f hf x hx hnone
    rcases hf x with ⟨h1, h2, h3⟩
    rw [h1] at hnone
    rcases hinv x hx hnone with ⟨hn, ha⟩
    rw [h2, h3]
    exact ⟨hn, ha⟩
  cases op with
  | thrCreate d now =>
    intro cv hcv
    revert hcv
    show cv ∈ (match create_thread d now db with
      | some r => r.2
      | none => db).conversations → _
    cases hcr : create_thread d now db with
    | none => exact fun hcv => hinv cv hcv
    | some r =>
      rw [create_thread2_conversations d now db db r hcr]
      exact fun hcv => hinv cv hcv
  | convGetOrCreate tid p1 p2 n1 n2 a1 a2 nm now =>
    intro cv hcv
    revert hcv
    show cv ∈ (get_or_create_conversation tid p1 p2 n1 n2 a1 a2 nm now db).2.conversations → _
    rcases get_or_create_conversation_conversations tid p1 p2 n1 n2 a1 a2 nm now db with
      h | ⟨row, _, hrowinv, h⟩
    · rw [h]; exact fun hcv => hinv cv hcv
    · rw [h]
      intro hcv
      rcases List.mem_append.mp hcv with hl | hr
      · exact hinv cv hl
      · rw [List.mem_singleton.mp hr]
        exact hrowinv
  | convJoin cid p2 n a now =>
    intro cv hcv
    refine hmap _ ?_ cv hcv
    intro x hx
    by_cases hp : (x.id == cid && x.participant2_id == none) = true
    · rw [if_pos hp]
      intro hnone
      simp at hnone
    · rw [if_neg hp]
      exact hinv x hx
  | convMarkRead cid =>
    intro cv hcv
    revert hcv
    show cv ∈ ((update_conversation_read_status_detailed cid db).2).conversations → _
    unfold update_conversation_read_status_detailed
    cases hf : findConv db cid with
    | none => exact fun hcv => hinv cv hcv
    | some cr =>
      simp only []
      by_cases hgt : cr.unread_count > 0
      · rw [if_pos hgt]
        refine fun hcv => hmap _ ?_ cv hcv
        refine hsame _ ?_
        intro x
        by_cases hi : (x.id == cid) = true <;> simp [clearUnreadCount, hi]
      · rw [if_neg hgt]
        exact fun hcv => hinv cv hcv
  | msgInsert row now =>
    intro cv hcv
    revert hcv
    show cv ∈ (insertMessageRow row now db).conversations → _
    unfold insertMessageRow
    by_cases hd : row.deleted = true
    · rw [if_pos hd]
      exact fun hcv => hinv cv hcv
    · rw [if_neg hd]
      refine fun hcv => hmap _ ?_ cv hcv
      refine hsame _ ?_
      intro x
      by_cases hi : (x.id == row.conversation_id) = true <;> simp [hi]
  | msgDelete mid now =>
    intro cv hcv
    revert hcv
    show cv ∈ ((delete_message mid now db).2).conversations → _
    unfold delete_message
    cases hf : findMessage db mid with
    | none => exact fun hcv => hinv cv hcv
    | some old =>
      simp only []
      by_cases hd : old.deleted = true
      · rw [if_pos hd]
        exact fun hcv => hinv cv hcv
      · rw [if_neg hd]
        refine fun hcv => hmap _ ?_ cv hcv
        refine hsame _ ?_
        intro x
        by_cases hi : (x.id == old.conversation_id) = true <;> simp [hi]

/-- C3 amended: the participant-2 slot lifecycle. (i) the conditional
update succeeds exactly when an open row with the requested id exists;
(ii) sequentially, of two joins on the same open conversation the first
succeeds and the second is rejected as the conflict (400) with the store
unchanged, the slot holding the winner; (iii) when both prechecks read the
pre-join state, the loser of the conditional-update race is rejected with
the internal update failure (500), not the conflict, the store still
holding the winner; (iv) a filled slot survives every modelled operation
unchanged; (v) while the slot is open all three participant-2 fields are
null together, an invariant every operation preserves (a join can however
fill the id while copying a NULL profile name, see the counterexample). -/
theorem participant2_lifecycle (db : DB) (tid cid uidA uidB : String)
    (nowA nowB : Nat) (c : ConversationRow) (uA uB : UserRow)
    (ht : thread_exists db tid = true)
    (hfind : findConv db cid = some c)
    (hopen : c.participant2_id = none)
    (hA : c.participant1_id ≠ uidA) (hB : c.participant1_id ≠ uidB)
    (huA : findUser db uidA = some uA) (huB : findUser db uidB = some uB)
    (huniq : ∀ c' ∈ db.conversations, c'.id = cid → c' = c) :
    (∀ (db' : DB) (cid' uid' : String) (n a : Option String) (now' : Nat),
      (add_participant2_to_conversation cid' uid' n a now' db').1 = true ↔
        ∃ cv ∈ db'.conversations, cv.id = cid' ∧ cv.participant2_id = none) ∧
    ((join_conversation tid cid uidA nowA db).1 = .joined ∧
     ((join_conversation tid cid uidB nowB
        (join_conversation tid cid uidA nowA db).2).1).isConflict = true ∧
     (join_conversation tid cid uidB nowB
        (join_conversation tid cid uidA nowA db).2).2 =
       (join_conversation tid cid uidA nowA db).2 ∧
     (∀ c' ∈ (join_conversation tid cid uidA nowA db).2.conversations,
        c'.id = cid → c'.participant2_id = some uidA)) ∧
    (join_pre tid cid uidA db = .ok (uA.display_name, uA.photo_url) ∧
     join_pre tid cid uidB db = .ok (uB.display_name, uB.photo_url) ∧
     (join_finish cid uidA (uA.display_name, uA.photo_url) nowA db).1 = .joined ∧
     (join_finish cid uidB (uB.display_name, uB.photo_url) nowB
        (join_finish cid uidA (uA.display_name, uA.photo_url) nowA db).2).1 =
       .updateFailed ∧
     (join_finish cid uidB (uB.display_name, uB.photo_url) nowB
        (join_finish cid uidA (uA.display_name, uA.photo_url) nowA db).2).2 =
       (join_finish cid uidA (uA.display_name, uA.photo_url) nowA db).2 ∧
     (∀ c' ∈ (join_finish cid uidA (uA.display_name, uA.photo_url) nowA db).2.conversations,
        c'.id = cid → c'.participant2_id = some uidA)) ∧
    (∀ (db' : DB) (op : DBOp) (c0 : ConversationRow), c0 ∈ db'.conversations →
      c0.participant2_id.isSome = true →
      ∃ c1 ∈ (applyOp op db').conversations, c1.id = c0.id ∧
        c1.participant2_id = c0.participant2_id ∧
        c1.participant2_name = c0.participant2_name ∧
        c1.participant2_avatar = c0.participant2_avatar) ∧
    (∀ (db' : DB) (op : DBOp), openSlotInvariant db' →
      openSlotInvariant (applyOp op db')) := by
  have hfind' : db.conversations.find? (fun c' => c'.id == cid) = some c := hfind
  have hpcu : (c.id == cid) = true :=
    List.find?_some (p := fun c' : ConversationRow => c'.id == cid) hfind'
  have hcmem : c ∈ db.conversations := List.mem_of_find?_eq_some hfind'
  have hmatchc : (c.id == cid && c.participant2_id == none) = true := by
    simp [hpcu, hopen]
  have hcex : conversation_exists db cid = true := by
    unfold conversation_exists
    rw [show findConv db cid = some c from hfind]
    rfl
  have hp2 : c.participant2_id.isSome = false := by rw [hopen]; rfl
  have hpreA : join_pre tid cid uidA db = .ok (uA.display_name, uA.photo_url) := by
    have hp1 : (c.participant1_id == uidA) = false := by simp [hA]
    simp [join_pre, ht, hcex, hfind, hp2, hp1, huA]
  have hpreB : join_pre tid cid uidB db = .ok (uB.display_name, uB.photo_url) := by
    have hp1 : (c.participant1_id == uidB) = false := by simp [hB]
    simp [join_pre, ht, hcex, hfind, hp2, hp1, huB]
  have hmatched : (db.conversations.any
      (fun c' => c'.id == cid && c'.participant2_id == none)) = true :=
    List.any_eq_true.mpr ⟨c, hcmem, hmatchc⟩
  have hfinA : join_finish cid uidA (uA.display_name, uA.photo_url) nowA db =
      (.joined, { db with conversations := db.conversations.map (fun c' =>
        if c'.id == cid && c'.participant2_id == none then
          { c' with participant2_id := some uidA
                    participant2_name := uA.display_name
                    participant2_avatar := uA.photo_url
                    updated_at := nowA }
        else c') }) := by
    simp [join_finish, add_participant2_to_conversation, hmatched]
  have hjoinA : join_conversation tid cid uidA nowA db =
      (.joined, { db with conversations := db.conversations.map (fun c' =>
        if c'.id == cid && c'.participant2_id == none then
          { c' with participant2_id := some uidA
                    participant2_name := uA.display_name
                    participant2_avatar := uA.photo_url
                    updated_at := nowA }
        else c') }) := by
    rw [join_conversation, hpreA]
    exact hfinA
  have hrows : ∀ c' ∈ (db.conversations.map (fun c' =>
      if c'.id == cid && c'.participant2_id == none then
        { c' with participant2_id := some uidA
                  participant2_name := uA.display_name
                  participant2_avatar := uA.photo_url
                  updated_at := nowA }
      else c')), c'.id = cid → c'.participant2_id = some uidA := by
    intro c' hc' hid
    rcases List.mem_map.mp hc' with ⟨c0, hc0, heq⟩
    by_cases h0 : (c0.id == cid && c0.participant2_id == none) = true
    · rw [if_pos h0] at heq
      rw [← heq]
    · rw [if_neg h0] at heq
      rw [← heq] at hid
      rw [huniq c0 hc0 hid] at h0
      exact absurd hmatchc h0
  have hpredfalse : ∀ x ∈ (db.conversations.map (fun c' =>
      if c'.id == cid && c'.participant2_id == none then
        { c' with participant2_id := some uidA
                  participant2_name := uA.display_name
                  participant2_avatar := uA.photo_url
                  updated_at := nowA }
      else c')), (x.id == cid && x.participant2_id == none) = false := by
    intro x hx
    rcases List.mem_map.mp hx with ⟨c0, hc0, heq⟩
    by_cases h0 : (c0.id == cid && c0.participant2_id == none) = true
    · rw [if_pos h0] at heq
      rw [← heq]
      simp
    · rw [if_neg h0] at heq
      rw [← heq]
      by_cases hid0 : (c0.id == cid) = true
      · rw [huniq c0 hc0 (beq_iff_eq.mp hid0)] at h0
        exact absurd hmatchc h0
      · simp [hid0]
  have hmatched1 : ((db.conversations.map (fun c' =>
      if c'.id == cid && c'.participant2_id == none then
        { c' with participant2_id := some uidA
                  participant2_name := uA.display_name
                  participant2_avatar := uA.photo_url
                  updated_at := nowA }
      else c')).any (fun c' => c'.id == cid && c'.participant2_id == none)) = false := by
    cases hany : ((db.conversations.map _).any _) with
    | false => rfl
    | true =>
      rcases List.any_eq_true.mp hany with ⟨x, hx, hpx⟩
      rw [hpredfalse x hx] at hpx
      cases hpx
  have hmapid : ((db.conversations.map (fun c' =>
      if c'.id == cid && c'.participant2_id == none then
        { c' with participant2_id := some uidA
                  participant2_name := uA.display_name
                  participant2_avatar := uA.photo_url
                  updated_at := nowA }
      else c')).map (fun c' =>
      if c'.id == cid && c'.participant2_id == none then
        { c' with participant2_id := some uidB
                  participant2_name := uB.display_name
                  participant2_avatar := uB.photo_url
                  updated_at := nowB }
      else c')) = (db.conversations.map (fun c' =>
      if c'.id == cid && c'.participant2_id == none then
        { c' with participant2_id := some uidA
                  participant2_name := uA.display_name
                  participant2_avatar := uA.photo_url
                  updated_at := nowA }
      else c')) := by
    rw [List.map_congr_left (g := id), List.map_id]
    intro x hx
    rw [if_neg (by rw [hpredfalse x hx]; exact Bool.false_ne_true)]
    rfl
  have hfinB1 : join_finish cid uidB (uB.display_name, uB.photo_url) nowB
      ({ db with conversations := db.conversations.map (fun c' =>
        if c'.id == cid && c'.participant2_id == none then
          { c' with participant2_id := some uidA
                    participant2_name := uA.display_name
                    participant2_avatar := uA.photo_url
                    updated_at := nowA }
        else c') }) =
      (.updateFailed, { db with conversations := db.conversations.map (fun c' =>
        if c'.id == cid && c'.participant2_id == none then
          { c' with participant2_id := some uidA
                    participant2_name := uA.display_name
                    participant2_avatar := uA.photo_url
                    updated_at := nowA }
        else c') }) := by
    have haddB : add_participant2_to_conversation cid uidB uB.display_name
        uB.photo_url nowB ({ db with conversations := db.conversations.map (fun c' =>
          if c'.id == cid && c'.participant2_id == none then
            { c' with participant2_id := some uidA
                      participant2_name := uA.display_name
                      participant2_avatar := uA.photo_url
                      updated_at := nowA }
          else c') }) =
        (false, { db with conversations := db.conversations.map (fun c' =>
          if c'.id == cid && c'.participant2_id == none then
            { c' with participant2_id := some uidA
                      participant2_name := uA.display_name
                      participant2_avatar := uA.photo_url
                      updated_at := nowA }
          else c') }) := by
      unfold add_participant2_to_conversation
      simp only []
      rw [hmatched1, hmapid]
    simp only [join_finish]
    rw [haddB]
    rfl
  have hfind1 : findConv ({ db with conversations := db.conversations.map (fun c' =>
      if c'.id == cid && c'.participant2_id == none then
        { c' with participant2_id := some uidA
                  participant2_name := uA.display_name
                  participant2_avatar := uA.photo_url
                  updated_at := nowA }
      else c') }) cid =
      some { c with participant2_id := some uidA
                    participant2_name := uA.display_name
                    participant2_avatar := uA.photo_url
                    updated_at := nowA } := by
    unfold findConv
    show ((db.conversations.map _).find? _) = _
    rw [find_map_comm (p := fun c' : ConversationRow => c'.id == cid)]
    · rw [hfind']
      simp only [Option.map_some']
      rw [if_pos hmatchc]
    · intro a
      by_cases hpa : (a.id == cid && a.participant2_id == none) = true
      · rw [if_pos hpa]
      · rw [if_neg hpa]
  have hjoinB : join_conversation tid cid uidB nowB
      ({ db with conversations := db.conversations.map (fun c' =>
        if c'.id == cid && c'.participant2_id == none then
          { c' with participant2_id := some uidA
                    participant2_name := uA.display_name
                    participant2_avatar := uA.photo_url
                    updated_at := nowA }
        else c') }) =
      (.alreadyJoined (some uidA) uA.display_name,
       { db with conversations := db.conversations.map (fun c' =>
        if c'.id == cid && c'.participant2_id == none then
          { c' with participant2_id := some uidA
                    participant2_name := uA.display_name
                    participant2_avatar := uA.photo_url
                    updated_at := nowA }
        else c') }) := by
    have hex1 : thread_exists ({ db with conversations := db.conversations.map (fun c' =>
        if c'.id == cid && c'.participant2_id == none then
          { c' with participant2_id := some uidA
                    participant2_name := uA.display_name
                    participant2_avatar := uA.photo_url
                    updated_at := nowA }
        else c') }) tid = true := ht
    have hcex1 : conversation_exists ({ db with conversations := db.conversations.map (fun c' =>
        if c'.id == cid && c'.participant2_id == none then
          { c' with participant2_id := some uidA
                    participant2_name := uA.display_name
                    participant2_avatar := uA.photo_url
                    updated_at := nowA }
        else c') }) cid = true := by
      unfold conversation_exists
      rw [hfind1]
      rfl
    have hpreB1 : join_pre tid cid uidB
        ({ db with conversations := db.conversations.map (fun c' =>
          if c'.id == cid && c'.participant2_id == none then
            { c' with participant2_id := some uidA
                      participant2_name := uA.display_name
                      participant2_avatar := uA.photo_url
                      updated_at := nowA }
          else c') }) =
        .error (.alreadyJoined (some uidA) uA.display_name) := by
      unfold join_pre
      rw [hex1, hcex1, hfind1]
      rfl
    rw [join_conversation, hpreB1]
  refine ⟨?_, ⟨?_, ?_, ?_, ?_⟩, ⟨hpreA, hpreB, ?_, ?_, ?_, ?_⟩,
    p2_slot_immutable, open_slot_invariant_preserved⟩
  · intro db' cid' uid' n a now'
    constructor
    · intro hm
      rcases List.any_eq_true.mp hm with ⟨cv, hcv, hpcv⟩
      simp only [Bool.and_eq_true, beq_iff_eq] at hpcv
      exact ⟨cv, hcv, hpcv.1, hpcv.2⟩
    · rintro ⟨cv, hcv, h1, h2⟩
      exact List.any_eq_true.mpr ⟨cv, hcv, by simp [h1, h2]⟩
  · rw [hjoinA]
  · rw [hjoinA]
    dsimp only
    rw [hjoinB]
    rfl
  · rw [hjoinA]
    dsimp only
    rw [hjoinB]
  · rw [hjoinA]
    exact hrows
  · rw [hfinA]
  · rw [hfinA]
    dsimp only
    rw [hfinB1]
  · rw [hfinA]
    dsimp only
    rw [hfinB1]
  · rw [hfinA]
    exact hrows

/-- Decidable equality for Except results, used to evaluate the join
precheck on concrete stores. -/
instance exceptDecEq {e a : Type} [DecidableEq e] [DecidableEq a] :
    DecidableEq (Except e a) := fun x y =>
  match x, y with
  | .error u, .error v =>
    if h : u = v then isTrue (by rw [h]) else isFalse (by intro hc; cases hc; exact h rfl)
  | .ok u, .ok v =>
    if h : u = v then isTrue (by rw [h]) else isFalse (by intro hc; cases hc; exact h rfl)
  | .error _, .ok _ => isFalse (by intro hc; cases hc)
  | .ok _, .error _ => isFalse (by intro hc; cases hc)

/-- Witness users for the participant-2 lifecycle claims. -/
def wUserBob : UserRow :=
  { firebase_uid := "bob", display_name := some "Bob", photo_url := some "b.png" }

/-- Second joining user. -/
def wUserCarol : UserRow :=
  { firebase_uid := "carol", display_name := some "Carol", photo_url := some "c.png" }

/-- A stored user whose display name and photo are NULL. -/
def wUserDave : UserRow := { firebase_uid := "dave" }

/-- Open conversation c1 under thread t1. -/
def wConv3 : ConversationRow :=
  { id := "c1", thread_id := "t1", participant1_id := "alice"
    participant1_name := some "Alice" }

/-- Open conversation c2 under thread t1. -/
def wConv3b : ConversationRow :=
  { id := "c2", thread_id := "t1", participant1_id := "alice"
    participant1_name := some "Alice" }

/-- Witness store for the participant-2 lifecycle claims. -/
def wDB3 : DB :=
  { users := [wUserBob, wUserCarol, wUserDave]
    threads := [{ id := "t1", title := "T", description := ""
                  campaign_id := some "camp", created_by := "alice"
                  status := "active", updated_at := 0 }]
    conversations := [wConv3, wConv3b] }

/-- C3 counterexample. First: both join prechecks read the open
conversation c1, bob finishes his conditional update first; carol then gets
the HTTP 500 updateFailed response, not the alreadyJoined conflict the
claim promises for the racing loser. Second: dave, whose stored display
name is NULL, joins the open conversation c2; afterwards participant2_id is
populated while participant2_name is NULL, refuting the claim that the
three participant-2 fields are always all null or all populated. -/
theorem join_conflict_counterexample :
    join_pre "t1" "c1" "bob" wDB3 = .ok (some "Bob", some "b.png") ∧
    join_pre "t1" "c1" "carol" wDB3 = .ok (some "Carol", some "c.png") ∧
    (join_finish "c1" "bob" (some "Bob", some "b.png") 1 wDB3).1 = .joined ∧
    (join_finish "c1" "carol" (some "Carol", some "c.png") 2
      (join_finish "c1" "bob" (some "Bob", some "b.png") 1 wDB3).2).1 =
      .updateFailed ∧
    JoinResp.isConflict .updateFailed = false ∧
    (join_conversation "t1" "c2" "dave" 3 wDB3).1 = .joined ∧
    ∃ cv ∈ (join_conversation "t1" "c2" "dave" 3 wDB3).2.conversations,
      cv.id = "c2" ∧ cv.participant2_id = some "dave" ∧
      cv.participant2_name = none := by
  decide

/-- Witness: the amended lifecycle applied to bob and carol racing on c1. -/
theorem participant2_lifecycle_witness :
    (join_conversation "t1" "c1" "bob" 1 wDB3).1 = .joined ∧
    ((join_conversation "t1" "c1" "carol" 2
       (join_conversation "t1" "c1" "bob" 1 wDB3).2).1).isConflict = true ∧
    (join_conversation "t1" "c1" "carol" 2
       (join_conversation "t1" "c1" "bob" 1 wDB3).2).2 =
      (join_conversation "t1" "c1" "bob" 1 wDB3).2 ∧
    (join_finish "c1" "carol" (wUserCarol.display_name, wUserCarol.photo_url) 2
       (join_finish "c1" "bob" (wUserBob.display_name, wUserBob.photo_url) 1 wDB3).2).1 =
      .updateFailed :=
  let h := participant2_lifecycle wDB3 "t1" "c1" "bob" "carol" 1 2 wConv3
    wUserBob wUserCarol (by decide) (by decide) rfl (by decide) (by decide)
    (by decide) (by decide) (by decide)
  ⟨h.2.1.1, h.2.1.2.1, h.2.1.2.2.1, h.2.2.1.2.2.2.1⟩
